import Mathlib

/-!
# Channel discovery controller of (n+1)sec (`src/channelsearch.cc`)

A shallow embedding of `np1sec::ChannelSearch`: the search session, the candidate
registry (`m_channels`), the event log, the event dispatcher and the join arbiter.

* `std::string` is `String`; `std::map<std::string, std::unique_ptr<Channel>>` is an
  association list kept in ascending key order (`ChannelMap`).
* A member function that can abort (a failed `assert`) or dereference a null
  `unique_ptr` returns `Except Fault _`.
* `assert` comes from `<cassert>`; whether `NDEBUG` is defined is a build setting that
  the sources do not fix, so it is the field `Env.ndebug`.
* The classes `Channel` and `Room`, the message codecs and `crypto::hash` are not part
  of `channelsearch.cc`; they are parameters (`Env`) or modelled as recorders.
-/

namespace np1sec

/-! ## Messages and room events -/

/-- Wire message kinds (`Message::Type`). The controller inspects three of them; every
other kind of the library is `Other tag`. -/
inductive MessageType where
  | ChannelSearch
  | ChannelStatus
  | ChannelAnnouncement
  | Other (tag : Nat)
  deriving DecidableEq, Repr

/-- A wire message (`Message`): its kind and its payload bytes. -/
structure Message where
  type : MessageType
  payload : String
  deriving DecidableEq, Repr

/-- Decoded body of a search probe (`ChannelSearchMessage`). -/
structure ChannelSearchMessage where
  nonce : String
  deriving DecidableEq, Repr

/-- One entry of a participant list of a status message; the controller reads only
`username`. -/
structure Participant where
  username : String
  deriving DecidableEq, Repr

/-- Decoded body of a status message (`ChannelStatusMessage`). -/
structure ChannelStatusMessage where
  participants : List Participant
  unauthorized_participants : List Participant
  deriving DecidableEq, Repr

/-- Decoded body of an announcement (`ChannelAnnouncementMessage`); the controller never
looks inside it. -/
structure ChannelAnnouncementMessage where
  body : String
  deriving DecidableEq, Repr

/-- The tag of a room event (`RoomEvent::Type`). -/
inductive RoomEventType where
  | Message
  | Join
  | Leave
  deriving DecidableEq, Repr

/-- A room event (`RoomEvent`): `sender`, `type` and `message`. For `Join` and `Leave`
the field `message` is left as the default-constructed value (`Message.unset`). -/
structure RoomEvent where
  sender : String
  type : RoomEventType
  message : Message
  deriving DecidableEq, Repr

/-- The default-constructed `Message` that `user_joined` and `user_left` leave in the
event; `send_event` never reads it. -/
def Message.unset : Message := { type := MessageType.Other 0, payload := "" }

/-! ## The opaque channel handle -/

/-- A member function called on a channel handle. -/
inductive ChannelCall where
  | message_received (sender : String) (message : Message)
  | user_joined (sender : String)
  | user_left (sender : String)
  | confirm_participant (sender : String)
  | join
  deriving DecidableEq, Repr

/-- The two constructors of `Channel` used by the controller. -/
inductive ChannelCtor where
  | from_status (message : ChannelStatusMessage)
  | from_announcement (message : ChannelAnnouncementMessage) (sender : String)
  deriving DecidableEq, Repr

/-- Modelled from the spec: the class `Channel` (an opaque state machine fed events, §6
"Consumed from Channel handle") is not among the sources. A handle is the record of how
it was constructed and of every call made on it since, in order; what `empty()` and
`joined()` answer is an arbitrary function of that record (`Env.empty`, `Env.joined`). -/
structure Channel where
  ctor : ChannelCtor
  calls : List ChannelCall
  deriving DecidableEq, Repr

/-- Apply one member function to a handle: the call is appended to its record. -/
def Channel.call (c : Channel) (x : ChannelCall) : Channel :=
  { c with calls := c.calls ++ [x] }

/-- Modelled from the spec: the class `Room` (§6 "Consumed from the Room") is not among
the sources. It holds the local `username()` and records what the controller hands to
it: the bytes given to `interface()->send_message` and the handles given to
`joined_channel`, both in call order. -/
structure Room where
  username : String
  sent : List String
  joined_channels : List Channel
  deriving DecidableEq, Repr

/-- The call `m_room->interface()->send_message(bytes)`. -/
def Room.send_message (r : Room) (bytes : String) : Room :=
  { r with sent := r.sent ++ [bytes] }

/-- The call `m_room->joined_channel(std::move(channel))`. -/
def Room.joined_channel (r : Room) (c : Channel) : Room :=
  { r with joined_channels := r.joined_channels ++ [c] }

/-- What the controller consumes from outside `channelsearch.cc`. -/
structure Env where
  /-- Whether `NDEBUG` is defined, in which case `assert` expands to nothing. -/
  ndebug : Bool
  /-- The expression `crypto::hash(identifier).dump_hex()`. -/
  hash_hex : String → String
  /-- The decoder `ChannelSearchMessage::decode`; `none` is `MessageFormatException`. -/
  decode_search : Message → Option ChannelSearchMessage
  /-- The decoder `ChannelStatusMessage::decode`. -/
  decode_status : Message → Option ChannelStatusMessage
  /-- The decoder `ChannelAnnouncementMessage::decode`. -/
  decode_announcement : Message → Option ChannelAnnouncementMessage
  /-- The expression `message.encode().encode()` for a search probe. -/
  encode_search : ChannelSearchMessage → String
  /-- The answer of `Channel::empty()`. -/
  empty : Channel → Bool
  /-- The answer of `Channel::joined()`. -/
  joined : Channel → Bool

/-- Ways a member function fails to return. -/
inductive Fault where
  | assertion_failed
  | null_dereference
  deriving DecidableEq, Repr

/-- The macro `assert(cond)`: nothing under `NDEBUG`, otherwise abort unless `cond`. -/
def assert_ (env : Env) (cond : Bool) : Except Fault Unit :=
  if env.ndebug || cond then Except.ok () else Except.error Fault.assertion_failed

/-! ## The candidate registry `m_channels` -/

/-- Lexicographic comparison of two character sequences by code unit, the order of
`std::string::operator<`. -/
def lex_lt : List Char → List Char → Bool
  | [], [] => false
  | [], _ :: _ => true
  | _ :: _, [] => false
  | a :: as, b :: bs =>
    if a.toNat < b.toNat then true
    else if b.toNat < a.toNat then false
    else lex_lt as bs

/-- Key order of the registry. -/
def key_lt (a b : String) : Bool := lex_lt a.data b.data

/-- The registry: entries in ascending key order, which is the iteration order. -/
abbrev ChannelMap := List (String × Channel)

/-- The keys of the registry in iteration order. -/
def ChannelMap.keys (m : ChannelMap) : List String := m.map Prod.fst

/-- The lookup `m_channels.find(k)`. -/
def ChannelMap.find (m : ChannelMap) (k : String) : Option Channel :=
  match m with
  | [] => none
  | (k1, c) :: rest => if k1 = k then some c else ChannelMap.find rest k

/-- The test `m_channels.count(k)` as a boolean. -/
def ChannelMap.count (m : ChannelMap) (k : String) : Bool := (m.find k).isSome

/-- The assignment `m_channels[k] = c`: replaces the entry of `k` or inserts it at its
place in key order. -/
def ChannelMap.assign (m : ChannelMap) (k : String) (c : Channel) : ChannelMap :=
  match m with
  | [] => [(k, c)]
  | (k1, c1) :: rest =>
    if k1 = k then (k, c) :: rest
    else if key_lt k k1 then (k, c) :: (k1, c1) :: rest
    else (k1, c1) :: ChannelMap.assign rest k c

/-- The statement `m_channels[k]->f()` for a member function recorded as `x`. When `k`
is not a key, `operator[]` yields a null `unique_ptr` and the call dereferences it. -/
def ChannelMap.call_at (m : ChannelMap) (k : String) (x : ChannelCall) :
    Except Fault ChannelMap :=
  match m.find k with
  | none => Except.error Fault.null_dereference
  | some c => Except.ok (m.assign k (c.call x))

/-! ## The controller -/

/-- The data members of `ChannelSearch`. The test `x.empty()` on a `std::string` member is
written `x = ""`. -/
structure ChannelSearch where
  m_room : Room
  m_received_search_message : Bool
  m_joining_channel_id : String
  m_event_log : List RoomEvent
  m_channels : ChannelMap
  m_search_nonce : String
  deriving DecidableEq, Repr

/-- The constructor `ChannelSearch::ChannelSearch(room)`. The nonce member is not
initialised by it; `nonce0` is whatever value it holds. -/
def ChannelSearch.new (room : Room) (nonce0 : String) : ChannelSearch :=
  { m_room := room
    m_received_search_message := false
    m_joining_channel_id := ""
    m_event_log := []
    m_channels := []
    m_search_nonce := nonce0 }

/-- The member `search()`; `fresh` is the value drawn by `crypto::nonce`. -/
def search (env : Env) (s : ChannelSearch) (fresh : String) : ChannelSearch :=
  { m_received_search_message := false
    m_joining_channel_id := ""
    m_event_log := []
    m_channels := []
    m_search_nonce := fresh
    m_room := s.m_room.send_message (env.encode_search { nonce := fresh }) }

/-- The scan of `join_channel`: the first key in iteration order whose hash, in hex,
equals `id_hash`; the empty string when there is none. -/
def find_identifier (env : Env) (m : ChannelMap) (id_hash : String) : String :=
  match m with
  | [] => ""
  | (k, _) :: rest =>
    if env.hash_hex k = id_hash then k else find_identifier env rest id_hash

/-- The member `join_channel(id_hash)`. -/
def join_channel (env : Env) (s : ChannelSearch) (id_hash : String) :
    Except Fault ChannelSearch :=
  match assert_ env (decide (s.m_joining_channel_id = "")) with
  | Except.error f => Except.error f
  | Except.ok _ =>
    let identifier := find_identifier env s.m_channels id_hash
    if identifier = "" then Except.ok s
    else
      match s.m_channels.call_at identifier ChannelCall.join with
      | Except.error f => Except.error f
      | Except.ok m => Except.ok { s with m_joining_channel_id := identifier, m_channels := m }

/-- The member `send_event(channel, event)`, with its three comparisons against
`RoomEvent::Type::Message` as written in the source. -/
def send_event (env : Env) (channel : Channel) (event : RoomEvent) : Except Fault Channel :=
  if event.type = RoomEventType.Message then
    Except.ok (channel.call (ChannelCall.message_received event.sender event.message))
  else if event.type = RoomEventType.Message then
    Except.ok (channel.call (ChannelCall.user_joined event.sender))
  else if event.type = RoomEventType.Message then
    Except.ok (channel.call (ChannelCall.user_left event.sender))
  else
    match assert_ env false with
    | Except.error f => Except.error f
    | Except.ok _ => Except.ok channel

/-- The loop of `create_channel`: replay `log` into `channel`, oldest entry first. -/
def replay (env : Env) (channel : Channel) (log : List RoomEvent) : Except Fault Channel :=
  match log with
  | [] => Except.ok channel
  | event :: rest =>
    match send_event env channel event with
    | Except.error f => Except.error f
    | Except.ok c => replay env c rest

/-- The member `create_channel(message)`: a handle built from the status message, then
fed the whole of `m_event_log`. -/
def create_channel (env : Env) (s : ChannelSearch) (message : ChannelStatusMessage) :
    Except Fault Channel :=
  replay env { ctor := ChannelCtor.from_status message, calls := [] } s.m_event_log

/-- The loop of `process_event` over `m_channels`: forward the event to a handle, erase the
entry if the handle then reports `empty()`, go on with the next entry. -/
def dispatch (env : Env) (event : RoomEvent) (m : ChannelMap) : Except Fault ChannelMap :=
  match m with
  | [] => Except.ok []
  | (k, c) :: rest =>
    match send_event env c event with
    | Except.error f => Except.error f
    | Except.ok c1 =>
      match dispatch env event rest with
      | Except.error f => Except.error f
      | Except.ok rest1 =>
        if env.empty c1 then Except.ok rest1 else Except.ok ((k, c1) :: rest1)

/-- The member `process_event(event)`. -/
def process_event (env : Env) (s : ChannelSearch) (event : RoomEvent) :
    Except Fault ChannelSearch :=
  if !s.m_received_search_message then Except.ok s
  else
    let log := s.m_event_log ++ [event]
    match dispatch env event s.m_channels with
    | Except.error f => Except.error f
    | Except.ok m => Except.ok { s with m_event_log := log, m_channels := m }

/-- The two loops of `message_received` that look for `sender` in `participants` and in
`unauthorized_participants`. -/
def sender_found (message : ChannelStatusMessage) (sender : String) : Bool :=
  let found := false
  let found := if message.participants.any (fun p => p.username = sender) then true else found
  let found :=
    if message.unauthorized_participants.any (fun p => p.username = sender) then true else found
  found

/-- The closing statement of `message_received` (source lines 156 to 161): when a join is
pending and the joining handle reports `joined()`, hand it to the room and clear the
registry and the pending identifier. -/
def complete_join (env : Env) (s : ChannelSearch) : Except Fault ChannelSearch :=
  if s.m_joining_channel_id ≠ "" then
    match s.m_channels.find s.m_joining_channel_id with
    | none => Except.error Fault.null_dereference
    | some joining_channel =>
      if env.joined joining_channel then
        Except.ok { s with
          m_channels := []
          m_joining_channel_id := ""
          m_room := s.m_room.joined_channel joining_channel }
      else Except.ok s
  else Except.ok s

/-- The `ChannelStatus` branch of `message_received`, entered after `process_event`. -/
def status_received (env : Env) (s : ChannelSearch) (sender : String)
    (np1sec_message : Message) : Except Fault ChannelSearch :=
  if !s.m_received_search_message then Except.ok s
  else
    let channel_id := np1sec_message.payload
    match env.decode_status np1sec_message with
    | none => Except.ok s
    | some message =>
      if !sender_found message sender then Except.ok s
      else
        let created : Except Fault ChannelMap :=
          if !s.m_channels.count channel_id then
            match create_channel env s message with
            | Except.error f => Except.error f
            | Except.ok channel => Except.ok (s.m_channels.assign channel_id channel)
          else Except.ok s.m_channels
        match created with
        | Except.error f => Except.error f
        | Except.ok m =>
          match m.call_at channel_id (ChannelCall.confirm_participant sender) with
          | Except.error f => Except.error f
          | Except.ok m1 => complete_join env { s with m_channels := m1 }

/-- The `ChannelAnnouncement` branch of `message_received`, entered after
`process_event`. -/
def announcement_received (env : Env) (s : ChannelSearch) (sender : String)
    (np1sec_message : Message) : Except Fault ChannelSearch :=
  if !s.m_received_search_message then Except.ok s
  else
    let channel_id := np1sec_message.payload ++ sender
    match env.decode_announcement np1sec_message with
    | none => Except.ok s
    | some message =>
      let m :=
        if !s.m_channels.count channel_id then
          s.m_channels.assign channel_id
            { ctor := ChannelCtor.from_announcement message sender, calls := [] }
        else s.m_channels
      match m.call_at channel_id (ChannelCall.confirm_participant sender) with
      | Except.error f => Except.error f
      | Except.ok m1 => complete_join env { s with m_channels := m1 }

/-- The `ChannelSearch` branch of `message_received`, entered after `process_event`. -/
def search_received (env : Env) (s : ChannelSearch) (sender : String)
    (np1sec_message : Message) : Except Fault ChannelSearch :=
  match env.decode_search np1sec_message with
  | none => Except.ok s
  | some message =>
    if sender = s.m_room.username ∧ message.nonce = s.m_search_nonce then
      complete_join env { s with m_received_search_message := true }
    else complete_join env s

/-- The member `message_received(sender, np1sec_message)`. -/
def message_received (env : Env) (s : ChannelSearch) (sender : String)
    (np1sec_message : Message) : Except Fault ChannelSearch :=
  let event : RoomEvent :=
    { sender := sender, type := RoomEventType.Message, message := np1sec_message }
  match process_event env s event with
  | Except.error f => Except.error f
  | Except.ok s1 =>
    match np1sec_message.type with
    | MessageType.ChannelSearch => search_received env s1 sender np1sec_message
    | MessageType.ChannelStatus => status_received env s1 sender np1sec_message
    | MessageType.ChannelAnnouncement => announcement_received env s1 sender np1sec_message
    | MessageType.Other _ => complete_join env s1

/-- The member `user_joined(sender)`. -/
def user_joined (env : Env) (s : ChannelSearch) (sender : String) :
    Except Fault ChannelSearch :=
  process_event env s
    { sender := sender, type := RoomEventType.Join, message := Message.unset }

/-- The member `user_left(sender)`. -/
def user_left (env : Env) (s : ChannelSearch) (sender : String) :
    Except Fault ChannelSearch :=
  process_event env s
    { sender := sender, type := RoomEventType.Leave, message := Message.unset }

/-- The states the controller can be in: built by the constructor and then driven by its
five public members, as long as each call returns. -/
inductive Reachable (env : Env) : ChannelSearch → Prop where
  | new (room : Room) (nonce0 : String) : Reachable env (ChannelSearch.new room nonce0)
  | search (s : ChannelSearch) (fresh : String) :
      Reachable env s → Reachable env (search env s fresh)
  | join_channel (s s1 : ChannelSearch) (id_hash : String) :
      Reachable env s → join_channel env s id_hash = Except.ok s1 → Reachable env s1
  | message_received (s s1 : ChannelSearch) (sender : String) (m : Message) :
      Reachable env s → message_received env s sender m = Except.ok s1 → Reachable env s1
  | user_joined (s s1 : ChannelSearch) (sender : String) :
      Reachable env s → user_joined env s sender = Except.ok s1 → Reachable env s1
  | user_left (s s1 : ChannelSearch) (sender : String) :
      Reachable env s → user_left env s sender = Except.ok s1 → Reachable env s1

/-- The registry after the call `x` has been made on every handle and the entries whose
handle then reports `empty()` have been erased: what the loop of `process_event` leaves
when the event is forwarded as `x`. -/
def forwarded (env : Env) (x : ChannelCall) (m : ChannelMap) : ChannelMap :=
  (m.map (fun kc => (kc.1, kc.2.call x))).filter (fun kc => !env.empty kc.2)

/-- Representation invariant of `std::map`: keys strictly ascending. -/
def ChannelMap.sorted (m : ChannelMap) : Prop :=
  m.keys.Pairwise (fun a b => key_lt a b = true)

/-- One callback from the room transport: a message, a join or a leave. -/
inductive Inbound where
  | message (sender : String) (m : Message)
  | join (sender : String)
  | leave (sender : String)
  deriving DecidableEq, Repr

/-- The event sink the room invokes for an inbound callback. -/
def deliver (env : Env) (s : ChannelSearch) : Inbound → Except Fault ChannelSearch
  | Inbound.message sender m => message_received env s sender m
  | Inbound.join sender => user_joined env s sender
  | Inbound.leave sender => user_left env s sender

/-- An inbound callback is the latching probe of state `s` when it is a message of type
ChannelSearch that decodes, was sent by the local user and carries the session nonce. -/
def Inbound.latches (env : Env) (s : ChannelSearch) : Inbound → Prop
  | Inbound.message sender m =>
    m.type = MessageType.ChannelSearch
      ∧ ∃ d, env.decode_search m = some d ∧ sender = s.m_room.username
          ∧ d.nonce = s.m_search_nonce
  | Inbound.join _ => False
  | Inbound.leave _ => False

/-! ## Concrete environments and states used to exercise the theorems -/

/-- A small environment: the hash prepends `#`, a search probe carries its nonce as
payload, every status message other than `bad` lists bob and carol as participants,
every announcement other than `bad` decodes. -/
def demo_env (ndebug : Bool) (empty joined : Channel → Bool) : Env :=
  { ndebug := ndebug
    hash_hex := fun k => "#" ++ k
    decode_search := fun m => if m.payload = "bad" then none else some { nonce := m.payload }
    decode_status := fun m =>
      if m.payload = "bad" then none
      else some { participants := [{ username := "bob" }, { username := "carol" }]
                  unauthorized_participants := [] }
    decode_announcement := fun m =>
      if m.payload = "bad" then none else some { body := m.payload }
    encode_search := fun d => d.nonce
    empty := empty
    joined := joined }

/-- Handles that never report `empty()` nor `joined()`, in a build with assertions. -/
def quiet_env : Env := demo_env false (fun _ => false) (fun _ => false)

/-- The room of the local user alice. -/
def alice_room : Room := { username := "alice", sent := [], joined_channels := [] }

/-- The controller right after `search()` drew the nonce `N`. -/
def searching : ChannelSearch := search quiet_env (ChannelSearch.new alice_room "") "N"

/-- The echo of alice's own probe. -/
def probe_echo : Message := { type := MessageType.ChannelSearch, payload := "N" }

/-- The controller after the probe echo was observed: latched, nothing logged. -/
def latched : ChannelSearch := { searching with m_received_search_message := true }

/-- A status message for the channel `ID1`. -/
def status_ID1 : Message := { type := MessageType.ChannelStatus, payload := "ID1" }

/-- The decoded body of every demo status message. -/
def bob_carol : ChannelStatusMessage :=
  { participants := [{ username := "bob" }, { username := "carol" }]
    unauthorized_participants := [] }

/-- The same handles in a build without assertions (`NDEBUG` defined). -/
def quiet_release_env : Env := demo_env true (fun _ => false) (fun _ => false)

/-- The room events of `user_joined("frank")` and `user_left("gina")`. -/
def join_frank : RoomEvent :=
  { sender := "frank", type := RoomEventType.Join, message := Message.unset }

/-- See `join_frank`. -/
def leave_gina : RoomEvent :=
  { sender := "gina", type := RoomEventType.Leave, message := Message.unset }

/-- The latched controller after `user_joined("frank")` and `user_left("gina")` were
received with no candidate yet: both events are in the log. -/
def late_discovery : ChannelSearch := { latched with m_event_log := [join_frank, leave_gina] }

/-- A status message for the channel `ID2`. -/
def status_ID2 : Message := { type := MessageType.ChannelStatus, payload := "ID2" }

/-- Handles that always report `empty()`. -/
def hollow_env : Env := demo_env false (fun _ => true) (fun _ => false)

/-- The room event of a message. -/
def message_event (sender : String) (m : Message) : RoomEvent :=
  { sender := sender, type := RoomEventType.Message, message := m }

/-- The handle created for `ID1` by bob's status message in the state `latched`. -/
def handle_ID1 : Channel :=
  { ctor := ChannelCtor.from_status bob_carol
    calls := [ChannelCall.message_received "bob" status_ID1,
              ChannelCall.confirm_participant "bob"] }

/-- The state `latched` after bob's status message for `ID1`. -/
def with_ID1 : ChannelSearch :=
  { latched with
    m_event_log := [message_event "bob" status_ID1]
    m_channels := [("ID1", handle_ID1)] }

/-- The state `with_ID1` after `join_channel` selected `ID1`. -/
def joining_ID1 : ChannelSearch :=
  { with_ID1 with
    m_joining_channel_id := "ID1"
    m_channels := [("ID1", handle_ID1.call ChannelCall.join)] }

/-- A status message that does not decode. -/
def farewell : Message := { type := MessageType.ChannelStatus, payload := "bad" }

/-- Handles that report `empty()` once the last thing they received is carol's
message `farewell`. -/
def fading_env : Env :=
  demo_env false
    (fun c => decide (c.calls.getLast? = some (ChannelCall.message_received "carol" farewell)))
    (fun _ => false)

/-- The state `joining_ID1` after carol's `farewell`: the joining candidate is gone, the
pending identifier is still set. -/
def stranded : ChannelSearch :=
  { joining_ID1 with
    m_event_log := [message_event "bob" status_ID1, message_event "carol" farewell]
    m_channels := [] }

/-- A status message whose payload, the channel identifier, is the empty string. -/
def status_nameless : Message := { type := MessageType.ChannelStatus, payload := "" }

/-- The state `latched` after bob's status message with the empty identifier. -/
def nameless : ChannelSearch :=
  { latched with
    m_event_log := [message_event "bob" status_nameless]
    m_channels := [("",
      { ctor := ChannelCtor.from_status bob_carol
        calls := [ChannelCall.message_received "bob" status_nameless,
                  ChannelCall.confirm_participant "bob"] })] }

/-- Handles that report `empty()` once the last thing they received is bob's status
message for `ID1`. -/
def brittle_env : Env :=
  demo_env false
    (fun c => decide (c.calls.getLast? = some (ChannelCall.message_received "bob" status_ID1)))
    (fun _ => false)

/-- The handle created for `ID1` by carol's status message in the state `latched`. -/
def carol_handle : Channel :=
  { ctor := ChannelCtor.from_status bob_carol
    calls := [ChannelCall.message_received "carol" status_ID1,
              ChannelCall.confirm_participant "carol"] }

/-- The state `latched` after carol's status message for `ID1`. -/
def with_carol_ID1 : ChannelSearch :=
  { latched with
    m_event_log := [message_event "carol" status_ID1]
    m_channels := [("ID1", carol_handle)] }

/-- The handle that `create_channel` builds when bob's status message for `ID1` follows
carol's: both logged messages are replayed into it. -/
def rebuilt_handle : Channel :=
  { ctor := ChannelCtor.from_status bob_carol
    calls := [ChannelCall.message_received "carol" status_ID1,
              ChannelCall.message_received "bob" status_ID1] }

/-- An announcement with payload `P`. -/
def announcement_P : Message := { type := MessageType.ChannelAnnouncement, payload := "P" }

/-! ## The two ways out of the discovery part of `message_received` -/

/-- Where control is once `message_received` has run `process_event` and the branch of
the message type (source lines 71 to 154): it has left the function through one of the
`return` statements, or it stands before the closing statement of line 156. -/
inductive Flow where
  | returned (s : ChannelSearch)
  | closing (s : ChannelSearch)
  deriving DecidableEq, Repr

/-- The `ChannelSearch` branch up to line 156. -/
def search_discovery (env : Env) (s : ChannelSearch) (sender : String)
    (np1sec_message : Message) : Flow :=
  match env.decode_search np1sec_message with
  | none => Flow.returned s
  | some message =>
    if sender = s.m_room.username ∧ message.nonce = s.m_search_nonce then
      Flow.closing { s with m_received_search_message := true }
    else Flow.closing s

/-- The `ChannelStatus` branch up to line 156. -/
def status_discovery (env : Env) (s : ChannelSearch) (sender : String)
    (np1sec_message : Message) : Except Fault Flow :=
  if !s.m_received_search_message then Except.ok (Flow.returned s)
  else
    let channel_id := np1sec_message.payload
    match env.decode_status np1sec_message with
    | none => Except.ok (Flow.returned s)
    | some message =>
      if !sender_found message sender then Except.ok (Flow.returned s)
      else
        let created : Except Fault ChannelMap :=
          if !s.m_channels.count channel_id then
            match create_channel env s message with
            | Except.error f => Except.error f
            | Except.ok channel => Except.ok (s.m_channels.assign channel_id channel)
          else Except.ok s.m_channels
        match created with
        | Except.error f => Except.error f
        | Except.ok m =>
          match m.call_at channel_id (ChannelCall.confirm_participant sender) with
          | Except.error f => Except.error f
          | Except.ok m1 => Except.ok (Flow.closing { s with m_channels := m1 })

/-- The `ChannelAnnouncement` branch up to line 156. -/
def announcement_discovery (env : Env) (s : ChannelSearch) (sender : String)
    (np1sec_message : Message) : Except Fault Flow :=
  if !s.m_received_search_message then Except.ok (Flow.returned s)
  else
    let channel_id := np1sec_message.payload ++ sender
    match env.decode_announcement np1sec_message with
    | none => Except.ok (Flow.returned s)
    | some message =>
      let m :=
        if !s.m_channels.count channel_id then
          s.m_channels.assign channel_id
            { ctor := ChannelCtor.from_announcement message sender, calls := [] }
        else s.m_channels
      match m.call_at channel_id (ChannelCall.confirm_participant sender) with
      | Except.error f => Except.error f
      | Except.ok m1 => Except.ok (Flow.closing { s with m_channels := m1 })

/-- Lines 71 to 154 of `message_received`: `process_event`, then the branch of the
message type. -/
def discovery (env : Env) (s : ChannelSearch) (sender : String)
    (np1sec_message : Message) : Except Fault Flow :=
  let event : RoomEvent :=
    { sender := sender, type := RoomEventType.Message, message := np1sec_message }
  match process_event env s event with
  | Except.error f => Except.error f
  | Except.ok s1 =>
    match np1sec_message.type with
    | MessageType.ChannelSearch => Except.ok (search_discovery env s1 sender np1sec_message)
    | MessageType.ChannelStatus => status_discovery env s1 sender np1sec_message
    | MessageType.ChannelAnnouncement => announcement_discovery env s1 sender np1sec_message
    | MessageType.Other _ => Except.ok (Flow.closing s1)

/-- The rest of `message_received`: nothing after a `return`, the closing statement of
lines 156 to 161 otherwise. -/
def conclude (env : Env) : Flow → Except Fault ChannelSearch
  | Flow.returned s => Except.ok s
  | Flow.closing s => complete_join env s

/-- The room event that a sink builds for an inbound callback. -/
def Inbound.event : Inbound → RoomEvent
  | Inbound.message sender m =>
    { sender := sender, type := RoomEventType.Message, message := m }
  | Inbound.join sender =>
    { sender := sender, type := RoomEventType.Join, message := Message.unset }
  | Inbound.leave sender =>
    { sender := sender, type := RoomEventType.Leave, message := Message.unset }

/-- The controller state carried by a `Flow`. -/
def Flow.state : Flow → ChannelSearch
  | Flow.returned s => s
  | Flow.closing s => s

/-- A message of a kind the controller does not inspect. -/
def welcome : Message := { type := MessageType.Other 7, payload := "welcome" }

/-- Handles that report `joined()` once the last thing they received is bob's
`welcome`. -/
def eager_env : Env :=
  demo_env false (fun _ => false)
    (fun c => decide (c.calls.getLast? = some (ChannelCall.message_received "bob" welcome)))

/-- The state `joining_ID1` after bob's `welcome` made the joining handle report
`joined()`: the handle has been handed to the room, nothing is left in the registry. -/
def handed_over : ChannelSearch :=
  { joining_ID1 with
    m_event_log := [message_event "bob" status_ID1, message_event "bob" welcome]
    m_channels := []
    m_joining_channel_id := ""
    m_room := joining_ID1.m_room.joined_channel
      ((handle_ID1.call ChannelCall.join).call (ChannelCall.message_received "bob" welcome)) }

/-- Handles that report `joined()` once the last thing they received is carol's
undecodable `farewell`. -/
def keen_env : Env :=
  demo_env false (fun _ => false)
    (fun c => decide (c.calls.getLast? = some (ChannelCall.message_received "carol" farewell)))

/-- Handles that report `joined()` as soon as `join()` was called on them, in a build
without assertions. -/
def ready_env : Env :=
  demo_env true (fun _ => false) (fun c => decide (ChannelCall.join ∈ c.calls))

/-- The room event that a call on a handle delivers, if the call is one of the three
event deliveries; `confirm_participant` and `join` deliver none. -/
def ChannelCall.event : ChannelCall → Option RoomEvent
  | ChannelCall.message_received sender message =>
    some { sender := sender, type := RoomEventType.Message, message := message }
  | ChannelCall.user_joined sender =>
    some { sender := sender, type := RoomEventType.Join, message := Message.unset }
  | ChannelCall.user_left sender =>
    some { sender := sender, type := RoomEventType.Leave, message := Message.unset }
  | ChannelCall.confirm_participant _ => none
  | ChannelCall.join => none

/-- The room events that have been delivered to a handle, by replay or by live
dispatch, in the order it received them. -/
def Channel.delivered (c : Channel) : List RoomEvent := c.calls.filterMap ChannelCall.event

/-- The state `with_ID1` after `user_joined("frank")` in a build without assertions: the
event is logged, the handle of `ID1` is as it was. -/
def after_frank : ChannelSearch :=
  { with_ID1 with m_event_log := [message_event "bob" status_ID1, join_frank] }

/-- The state `with_ID1` after bob's status message for `ID1` arrived a second time,
with handles that report `empty()` on receiving it (`brittle_env`): the entry was
erased and rebuilt. -/
def rebuilt_ID1 : ChannelSearch :=
  { with_ID1 with
    m_event_log := [message_event "bob" status_ID1, message_event "bob" status_ID1]
    m_channels := [("ID1",
      { ctor := ChannelCtor.from_status bob_carol
        calls := [ChannelCall.message_received "bob" status_ID1,
                  ChannelCall.message_received "bob" status_ID1,
                  ChannelCall.confirm_participant "bob"] })] }

/-- Every candidate's handle has been delivered a suffix of the event log. -/
def ChannelSearch.suffix_fed (s : ChannelSearch) : Prop :=
  ∀ kc ∈ s.m_channels, kc.2.delivered <:+ s.m_event_log

/-! ## Basic facts about the registry and the dispatcher -/

theorem send_event_message (env : Env) (c : Channel) (sender : String) (msg : Message) :
    send_event env c { sender := sender, type := RoomEventType.Message, message := msg }
      = Except.ok (c.call (ChannelCall.message_received sender msg)) := by
  simp [send_event]

theorem dispatch_message (env : Env) (sender : String) (msg : Message) (m : ChannelMap) :
    dispatch env { sender := sender, type := RoomEventType.Message, message := msg } m
      = Except.ok (forwarded env (ChannelCall.message_received sender msg) m) := by
  induction m with
  | nil => rfl
  | cons kc rest ih =>
    obtain ⟨k, c⟩ := kc
    simp only [dispatch, send_event_message, ih, forwarded, List.map_cons, List.filter_cons]
    cases h : env.empty (c.call (ChannelCall.message_received sender msg)) <;> simp

theorem process_event_message (env : Env) (s : ChannelSearch) (sender : String)
    (msg : Message) :
    process_event env s { sender := sender, type := RoomEventType.Message, message := msg }
      = Except.ok (if s.m_received_search_message = true then
          { s with
            m_event_log := s.m_event_log ++
              [{ sender := sender, type := RoomEventType.Message, message := msg }]
            m_channels := forwarded env (ChannelCall.message_received sender msg) s.m_channels }
        else s) := by
  unfold process_event
  cases h : s.m_received_search_message <;> simp [dispatch_message]

theorem process_event_unlatched (env : Env) (s : ChannelSearch) (event : RoomEvent)
    (h : s.m_received_search_message = false) : process_event env s event = Except.ok s := by
  simp [process_event, h]

theorem complete_join_idle (env : Env) (s : ChannelSearch) (h : s.m_joining_channel_id = "") :
    complete_join env s = Except.ok s := by
  simp [complete_join, h]

theorem complete_join_cases (env : Env) (s : ChannelSearch) :
    complete_join env s = Except.ok s
    ∨ (s.m_joining_channel_id ≠ ""
        ∧ ∃ c, ChannelMap.find s.m_channels s.m_joining_channel_id = some c
        ∧ env.joined c = true
        ∧ complete_join env s = Except.ok { s with
            m_channels := []
            m_joining_channel_id := ""
            m_room := s.m_room.joined_channel c })
    ∨ (s.m_joining_channel_id ≠ ""
        ∧ ChannelMap.find s.m_channels s.m_joining_channel_id = none
        ∧ complete_join env s = Except.error Fault.null_dereference) := by
  unfold complete_join
  by_cases hj : s.m_joining_channel_id = ""
  · simp [hj]
  · cases hf : ChannelMap.find s.m_channels s.m_joining_channel_id with
    | none => right; right; simp [hj, hf]
    | some c =>
      cases hjd : env.joined c
      · left; simp [hf, hjd]
      · right; left; exact ⟨hj, c, rfl, hjd, by simp [hj, hf, hjd]⟩

theorem complete_join_latch (env : Env) (s s1 : ChannelSearch)
    (h : complete_join env s = Except.ok s1) :
    s1.m_received_search_message = s.m_received_search_message := by
  rcases complete_join_cases env s with h1 | ⟨_, c, _, _, h1⟩ | ⟨_, _, h1⟩
  · rw [h1] at h; cases h; rfl
  · rw [h1] at h; cases h; rfl
  · rw [h1] at h; cases h

theorem complete_join_fault (env : Env) (s : ChannelSearch) (f : Fault)
    (h : complete_join env s = Except.error f) :
    f = Fault.null_dereference ∧ s.m_joining_channel_id ≠ "" := by
  rcases complete_join_cases env s with h1 | ⟨_, c, _, _, h1⟩ | ⟨hj, _, h1⟩
  · rw [h1] at h; cases h
  · rw [h1] at h; cases h
  · rw [h1] at h; cases h; exact ⟨rfl, hj⟩

/-! ## The probe latch -/

/-- C1: for every controller state and every inbound message of type ChannelSearch,
message_received either returns, and then probe_observed is true afterwards if and only
if it was true before or the message decodes, its sender is the local username and its
nonce is the session nonce; or it stops at the null handle of a pending join. It never
fails an assertion. -/
theorem message_received_probe_latch (env : Env) (s : ChannelSearch) (sender : String)
    (m : Message) (hm : m.type = MessageType.ChannelSearch) :
    (message_received env s sender m = Except.error Fault.null_dereference
        ∧ s.m_joining_channel_id ≠ "")
    ∨ ∃ s1, message_received env s sender m = Except.ok s1
        ∧ (s1.m_received_search_message = true ↔
            s.m_received_search_message = true
            ∨ ∃ d, env.decode_search m = some d ∧ sender = s.m_room.username
                ∧ d.nonce = s.m_search_nonce) := by
  simp only [message_received, process_event_message, hm]
  generalize hs0 : (if s.m_received_search_message = true then
      ({ s with
          m_event_log := s.m_event_log ++
            [{ sender := sender, type := RoomEventType.Message, message := m }]
          m_channels := forwarded env (ChannelCall.message_received sender m) s.m_channels }
        : ChannelSearch)
      else s) = s0
  have e1 : s0.m_received_search_message = s.m_received_search_message := by
    subst hs0; split <;> simp_all
  have e2 : s0.m_room = s.m_room := by subst hs0; split <;> rfl
  have e3 : s0.m_search_nonce = s.m_search_nonce := by subst hs0; split <;> rfl
  have e4 : s0.m_joining_channel_id = s.m_joining_channel_id := by subst hs0; split <;> rfl
  unfold search_received
  cases hd : env.decode_search m with
  | none => right; exact ⟨s0, rfl, by simp [e1]⟩
  | some d =>
    dsimp only
    by_cases hc : sender = s0.m_room.username ∧ d.nonce = s0.m_search_nonce
    · rw [if_pos hc]
      cases hcj : complete_join env { s0 with m_received_search_message := true } with
      | error f =>
        left
        have := complete_join_fault env _ f hcj
        exact ⟨by rw [this.1], by simpa [e4] using this.2⟩
      | ok s1 =>
        right
        refine ⟨s1, rfl, ?_⟩
        have := complete_join_latch env _ s1 hcj
        simp only at this
        rw [this]
        simp only [true_iff]
        right
        exact ⟨d, rfl, by rw [← e2]; exact hc.1, by rw [← e3]; exact hc.2⟩
    · rw [if_neg hc]
      cases hcj : complete_join env s0 with
      | error f =>
        left
        have := complete_join_fault env _ f hcj
        exact ⟨by rw [this.1], by simpa [e4] using this.2⟩
      | ok s1 =>
        right
        refine ⟨s1, rfl, ?_⟩
        have := complete_join_latch env _ s1 hcj
        rw [this, e1]
        constructor
        · intro h; exact Or.inl h
        · rintro (h | ⟨d1, hd1, h1, h2⟩)
          · exact h
          · cases hd1; exact absurd ⟨by rw [e2]; exact h1, by rw [e3]; exact h2⟩ hc

/-! ## The latch is only cleared by `search` -/

theorem status_received_latch (env : Env) (s s1 : ChannelSearch) (sender : String)
    (m : Message) (h : status_received env s sender m = Except.ok s1) :
    s1.m_received_search_message = s.m_received_search_message := by
  unfold status_received at h
  split at h
  · cases h; rfl
  · split at h
    · cases h; rfl
    · split at h
      · cases h; rfl
      · simp only at h
        split at h
        · cases h
        · split at h
          · cases h
          · have h2 := complete_join_latch env _ s1 h
            exact h2

theorem announcement_received_latch (env : Env) (s s1 : ChannelSearch) (sender : String)
    (m : Message) (h : announcement_received env s sender m = Except.ok s1) :
    s1.m_received_search_message = s.m_received_search_message := by
  unfold announcement_received at h
  split at h
  · cases h; rfl
  · split at h
    · cases h; rfl
    · simp only at h
      split at h
      · cases h
      · have h2 := complete_join_latch env _ s1 h
        exact h2

theorem search_received_latch_mono (env : Env) (s s1 : ChannelSearch) (sender : String)
    (m : Message) (h : search_received env s sender m = Except.ok s1)
    (hl : s.m_received_search_message = true) : s1.m_received_search_message = true := by
  unfold search_received at h
  split at h
  · cases h; exact hl
  · split at h
    · exact (complete_join_latch env _ s1 h).trans rfl
    · exact (complete_join_latch env _ s1 h).trans hl

theorem message_received_latch_mono (env : Env) (s s1 : ChannelSearch) (sender : String)
    (m : Message) (h : message_received env s sender m = Except.ok s1)
    (hl : s.m_received_search_message = true) : s1.m_received_search_message = true := by
  simp only [message_received, process_event_message, if_pos hl] at h
  split at h
  · exact search_received_latch_mono env _ s1 sender m h hl
  · exact (status_received_latch env _ s1 sender m h).trans hl
  · exact (announcement_received_latch env _ s1 sender m h).trans hl
  · exact (complete_join_latch env _ s1 h).trans hl

theorem process_event_latch (env : Env) (s s1 : ChannelSearch) (event : RoomEvent)
    (h : process_event env s event = Except.ok s1) :
    s1.m_received_search_message = s.m_received_search_message := by
  unfold process_event at h
  split at h
  · cases h; rfl
  · simp only at h
    split at h
    · cases h
    · cases h; rfl

/-! ## Before the probe is observed -/

theorem message_received_unlatched (env : Env) (s : ChannelSearch) (sender : String)
    (m : Message) (hl : s.m_received_search_message = false)
    (hj : s.m_joining_channel_id = "")
    (hn : ¬ Inbound.latches env s (Inbound.message sender m)) :
    message_received env s sender m = Except.ok s := by
  simp only [message_received, process_event_message, hl, Bool.false_eq_true, if_false]
  split
  · next hm =>
    unfold search_received
    cases hd : env.decode_search m with
    | none => rfl
    | some d =>
      simp only
      rw [if_neg]
      · exact complete_join_idle env s hj
      · intro hc
        exact hn ⟨hm, d, hd, hc.1, hc.2⟩
  · simp [status_received, hl]
  · simp [announcement_received, hl]
  · exact complete_join_idle env s hj

theorem message_received_probe (env : Env) (s : ChannelSearch) (sender : String)
    (m : Message) (hl : s.m_received_search_message = false)
    (hj : s.m_joining_channel_id = "")
    (hp : Inbound.latches env s (Inbound.message sender m)) :
    message_received env s sender m
      = Except.ok { s with m_received_search_message := true } := by
  obtain ⟨hm, d, hd, h1, h2⟩ := hp
  simp only [message_received, process_event_message, hl, Bool.false_eq_true, if_false, hm]
  unfold search_received
  simp only [hd]
  rw [if_pos ⟨h1, h2⟩]
  exact complete_join_idle env _ hj

/-- While the probe has not been observed the session holds nothing: no candidate, no
logged event, no pending join. -/
theorem reachable_unlatched (env : Env) (s : ChannelSearch) (hr : Reachable env s)
    (hl : s.m_received_search_message = false) :
    s.m_channels = [] ∧ s.m_event_log = [] ∧ s.m_joining_channel_id = "" := by
  induction hr with
  | new room nonce0 => exact ⟨rfl, rfl, rfl⟩
  | search s fresh _ _ => exact ⟨rfl, rfl, rfl⟩
  | join_channel s s1 id_hash _ h ih =>
    have hl0 : s.m_received_search_message = false := by
      cases hb : s.m_received_search_message
      · rfl
      · exfalso
        unfold join_channel at h
        split at h
        · cases h
        · simp only at h
          split at h
          · cases h; rw [hb] at hl; cases hl
          · split at h
            · cases h
            · cases h; simp only at hl; rw [hb] at hl; cases hl
    obtain ⟨hc, hlog, hj⟩ := ih hl0
    simp [join_channel, assert_, hj, hc, find_identifier] at h
    cases h
    exact ⟨hc, hlog, hj⟩
  | message_received s s1 sender m _ h ih =>
    have hl0 : s.m_received_search_message = false := by
      cases hb : s.m_received_search_message
      · rfl
      · rw [message_received_latch_mono env s s1 sender m h hb] at hl; cases hl
    obtain ⟨hc, hlog, hj⟩ := ih hl0
    by_cases hp : Inbound.latches env s (Inbound.message sender m)
    · rw [message_received_probe env s sender m hl0 hj hp] at h
      cases h
      cases hl
    · rw [message_received_unlatched env s sender m hl0 hj hp] at h
      cases h
      exact ⟨hc, hlog, hj⟩
  | user_joined s s1 sender _ h ih =>
    have hl0 : s.m_received_search_message = false := by
      rw [← process_event_latch env s s1 _ h]; exact hl
    rw [user_joined, process_event_unlatched env s _ hl0] at h
    cases h
    exact ih hl0
  | user_left s s1 sender _ h ih =>
    have hl0 : s.m_received_search_message = false := by
      rw [← process_event_latch env s s1 _ h]; exact hl
    rw [user_left, process_event_unlatched env s _ hl0] at h
    cases h
    exact ih hl0

/-- C2: in every reachable state where the probe has not been observed, an inbound event
(a message of any type, a join or a leave) that is not the latching probe returns with
the controller state exactly as it was: candidates and event_log are unchanged, no handle
is constructed or called, nothing is handed to the room. -/
theorem unlatched_event_changes_nothing (env : Env) (s : ChannelSearch) (e : Inbound)
    (hr : Reachable env s) (hl : s.m_received_search_message = false)
    (hn : ¬ Inbound.latches env s e) :
    deliver env s e = Except.ok s := by
  obtain ⟨_, _, hj⟩ := reachable_unlatched env s hr hl
  cases e with
  | message sender m => exact message_received_unlatched env s sender m hl hj hn
  | join sender => exact process_event_unlatched env s _ hl
  | leave sender => exact process_event_unlatched env s _ hl

/-! ## Lookup, assignment and eviction in the registry -/

theorem find_assign_same (m : ChannelMap) (k : String) (c : Channel) :
    ChannelMap.find (ChannelMap.assign m k c) k = some c := by
  induction m with
  | nil => simp [ChannelMap.assign, ChannelMap.find]
  | cons kc rest ih =>
    obtain ⟨k1, c1⟩ := kc
    unfold ChannelMap.assign
    by_cases h1 : k1 = k
    · simp [h1, ChannelMap.find]
    · by_cases h2 : key_lt k k1 = true
      · simp [h1, h2, ChannelMap.find]
      · simp [h1, h2, ChannelMap.find, ih]

theorem find_assign_other (m : ChannelMap) (k j : String) (c : Channel) (hne : j ≠ k) :
    ChannelMap.find (ChannelMap.assign m k c) j = ChannelMap.find m j := by
  induction m with
  | nil => simp [ChannelMap.assign, ChannelMap.find, Ne.symm hne]
  | cons kc rest ih =>
    obtain ⟨k1, c1⟩ := kc
    unfold ChannelMap.assign
    by_cases h1 : k1 = k
    · subst h1
      simp [ChannelMap.find, Ne.symm hne]
    · by_cases h2 : key_lt k k1 = true
      · simp [h1, h2, ChannelMap.find, Ne.symm hne]
      · by_cases h3 : k1 = j
        · subst h3
          simp [h1, h2, ChannelMap.find]
        · simp [h1, h2, ChannelMap.find, h3, ih]

theorem find_some_mem (m : ChannelMap) (k : String) (c : Channel)
    (h : ChannelMap.find m k = some c) : (k, c) ∈ m := by
  induction m with
  | nil => simp [ChannelMap.find] at h
  | cons kc rest ih =>
    obtain ⟨k1, c1⟩ := kc
    unfold ChannelMap.find at h
    by_cases h1 : k1 = k
    · simp [h1] at h; subst h1; subst h; exact List.mem_cons_self _ _
    · simp [h1] at h; exact List.mem_cons_of_mem _ (ih h)

theorem find_none_iff (m : ChannelMap) (k : String) :
    ChannelMap.find m k = none ↔ k ∉ m.keys := by
  induction m with
  | nil => simp [ChannelMap.find, ChannelMap.keys]
  | cons kc rest ih =>
    obtain ⟨k1, c1⟩ := kc
    unfold ChannelMap.find
    by_cases h1 : k1 = k
    · simp [h1, ChannelMap.keys]
    · simp only [h1, if_false, ih]
      simp [ChannelMap.keys, Ne.symm h1]

theorem mem_forwarded (env : Env) (x : ChannelCall) (m : ChannelMap) (k : String)
    (c1 : Channel) :
    (k, c1) ∈ forwarded env x m ↔
      ∃ c, (k, c) ∈ m ∧ c1 = c.call x ∧ env.empty c1 = false := by
  simp only [forwarded, List.mem_filter, List.mem_map, Prod.mk.injEq, Prod.exists]
  constructor
  · rintro ⟨⟨k0, c0, hmem, hk, hc⟩, he⟩
    subst hk; subst hc
    exact ⟨c0, hmem, rfl, by simpa using he⟩
  · rintro ⟨c, hmem, hc, he⟩
    exact ⟨⟨k, c, hmem, rfl, hc.symm⟩, by simpa using he⟩

theorem forwarded_cons (env : Env) (x : ChannelCall) (k : String) (c : Channel)
    (rest : ChannelMap) :
    forwarded env x ((k, c) :: rest)
      = if env.empty (c.call x) then forwarded env x rest
        else (k, c.call x) :: forwarded env x rest := by
  simp only [forwarded, List.map_cons, List.filter_cons]
  cases env.empty (c.call x) <;> simp

theorem forwarded_keys_subset (env : Env) (x : ChannelCall) (m : ChannelMap) :
    ∀ k ∈ (forwarded env x m).keys, k ∈ m.keys := by
  intro k hk
  simp only [ChannelMap.keys, List.mem_map, Prod.exists, exists_and_right,
    exists_eq_right] at hk ⊢
  obtain ⟨c1, hc1⟩ := hk
  obtain ⟨c, hmem, _, _⟩ := (mem_forwarded env x m k c1).1 hc1
  exact ⟨c, hmem⟩

theorem find_forwarded_none (env : Env) (x : ChannelCall) (m : ChannelMap) (k : String)
    (h : ChannelMap.find m k = none) : ChannelMap.find (forwarded env x m) k = none := by
  rw [find_none_iff] at h ⊢
  exact fun hk => h (forwarded_keys_subset env x m k hk)

theorem find_forwarded_keep (env : Env) (x : ChannelCall) (m : ChannelMap) (k : String)
    (c : Channel) (h : ChannelMap.find m k = some c) (he : env.empty (c.call x) = false) :
    ChannelMap.find (forwarded env x m) k = some (c.call x) := by
  induction m with
  | nil => simp [ChannelMap.find] at h
  | cons kc rest ih =>
    obtain ⟨k1, c1⟩ := kc
    rw [forwarded_cons]
    unfold ChannelMap.find at h
    by_cases h1 : k1 = k
    · simp only [h1, if_true, Option.some.injEq] at h
      subst h
      simp [he, ChannelMap.find, h1]
    · simp only [h1, if_false] at h
      cases hc : env.empty (c1.call x)
      · simp [ChannelMap.find, h1, ih h]
      · simp [ih h]

theorem lex_lt_irrefl (a : List Char) : lex_lt a a = false := by
  induction a with
  | nil => rfl
  | cons x xs ih => simp [lex_lt, ih]

theorem key_lt_irrefl (a : String) : key_lt a a = false := lex_lt_irrefl a.data

theorem lex_lt_asymm (a b : List Char) (h : lex_lt a b = true) : lex_lt b a = false := by
  induction a generalizing b with
  | nil => cases b <;> simp [lex_lt] at h ⊢
  | cons x xs ih =>
    cases b with
    | nil => simp [lex_lt] at h
    | cons y ys =>
      unfold lex_lt at h ⊢
      by_cases h1 : x.toNat < y.toNat
      · have h2 : ¬ y.toNat < x.toNat := by omega
        simp [h1, h2]
      · by_cases h2 : y.toNat < x.toNat
        · simp [h1, h2] at h
        · simp only [h1, h2, if_false] at h ⊢
          exact ih ys h

theorem key_lt_asymm (a b : String) (h : key_lt a b = true) : key_lt b a = false :=
  lex_lt_asymm a.data b.data h

theorem sorted_tail (kc : String × Channel) (rest : ChannelMap)
    (h : ChannelMap.sorted (kc :: rest)) : ChannelMap.sorted rest := by
  unfold ChannelMap.sorted ChannelMap.keys at h ⊢
  rw [List.map_cons, List.pairwise_cons] at h
  exact h.2

theorem sorted_head_lt (k : String) (c : Channel) (rest : ChannelMap)
    (h : ChannelMap.sorted ((k, c) :: rest)) : ∀ j ∈ rest.keys, key_lt k j = true := by
  unfold ChannelMap.sorted ChannelMap.keys at h
  rw [List.map_cons, List.pairwise_cons] at h
  exact h.1

theorem sorted_head_not_mem (k : String) (c : Channel) (rest : ChannelMap)
    (h : ChannelMap.sorted ((k, c) :: rest)) : k ∉ rest.keys := by
  intro hk
  have := sorted_head_lt k c rest h k hk
  rw [key_lt_irrefl] at this
  cases this

theorem find_forwarded_evict (env : Env) (x : ChannelCall) (m : ChannelMap) (k : String)
    (c : Channel) (hs : ChannelMap.sorted m) (h : ChannelMap.find m k = some c)
    (he : env.empty (c.call x) = true) :
    ChannelMap.find (forwarded env x m) k = none := by
  induction m with
  | nil => simp [ChannelMap.find] at h
  | cons kc rest ih =>
    obtain ⟨k1, c1⟩ := kc
    rw [forwarded_cons]
    unfold ChannelMap.find at h
    by_cases h1 : k1 = k
    · simp only [h1, if_true, Option.some.injEq] at h
      subst h; subst h1
      simp only [he, if_true]
      apply find_forwarded_none
      rw [find_none_iff]
      exact sorted_head_not_mem k1 c1 rest hs
    · simp only [h1, if_false] at h
      cases hc : env.empty (c1.call x)
      · simp [ChannelMap.find, h1, ih (sorted_tail _ _ hs) h]
      · simp [ih (sorted_tail _ _ hs) h]

theorem call_at_found (m : ChannelMap) (k : String) (x : ChannelCall) (c : Channel)
    (h : ChannelMap.find m k = some c) :
    ChannelMap.call_at m k x = Except.ok (ChannelMap.assign m k (c.call x)) := by
  simp [ChannelMap.call_at, h]

/-! ## Discovery through status messages and announcements -/

theorem sender_found_iff (d : ChannelStatusMessage) (sender : String) :
    sender_found d sender = true ↔
      (∃ p ∈ d.participants, p.username = sender)
      ∨ (∃ p ∈ d.unauthorized_participants, p.username = sender) := by
  unfold sender_found
  constructor
  · intro h
    by_cases h2 : (d.unauthorized_participants.any (fun p => decide (p.username = sender))) = true
    · right
      simpa using h2
    · by_cases h1 : (d.participants.any (fun p => decide (p.username = sender))) = true
      · left
        simpa using h1
      · simp [h1, h2] at h
  · rintro (h | h)
    · have h1 : (d.participants.any (fun p => decide (p.username = sender))) = true := by
        simpa using h
      simp [h1]
    · have h2 :
          (d.unauthorized_participants.any (fun p => decide (p.username = sender))) = true := by
        simpa using h
      simp [h2]

theorem replay_messages (env : Env) (c : Channel) (log : List RoomEvent)
    (h : ∀ e ∈ log, e.type = RoomEventType.Message) :
    replay env c log = Except.ok
      { c with calls := c.calls ++
          log.map (fun e => ChannelCall.message_received e.sender e.message) } := by
  induction log generalizing c with
  | nil => simp [replay]
  | cons e rest ih =>
    have he : e.type = RoomEventType.Message := h e (List.mem_cons_self _ _)
    have hr : ∀ e1 ∈ rest, e1.type = RoomEventType.Message :=
      fun e1 h1 => h e1 (List.mem_cons_of_mem _ h1)
    unfold replay
    simp only [send_event, he, if_true]
    rw [ih _ hr]
    simp [Channel.call]

theorem replay_ndebug (env : Env) (c : Channel) (log : List RoomEvent)
    (h : env.ndebug = true) :
    ∃ c0, replay env c log = Except.ok c0 ∧ c0.ctor = c.ctor := by
  induction log generalizing c with
  | nil => exact ⟨c, rfl, rfl⟩
  | cons e rest ih =>
    unfold replay
    by_cases he : e.type = RoomEventType.Message
    · simp only [send_event, he, if_true]
      obtain ⟨c0, h0, h1⟩ := ih (c.call (ChannelCall.message_received e.sender e.message))
      exact ⟨c0, h0, h1⟩
    · simp only [send_event, he, if_false, assert_, h, Bool.true_or, if_true]
      exact ih c

theorem replay_returns (env : Env) (c : Channel) (log : List RoomEvent)
    (h : env.ndebug = true ∨ ∀ e ∈ log, e.type = RoomEventType.Message) :
    ∃ c0, replay env c log = Except.ok c0 ∧ c0.ctor = c.ctor := by
  rcases h with h | h
  · exact replay_ndebug env c log h
  · exact ⟨_, replay_messages env c log h, rfl⟩

/-- What `message_received` computes for an admitted status message in a latched state. -/
theorem message_received_status (env : Env) (s : ChannelSearch) (sender : String)
    (m : Message) (d : ChannelStatusMessage)
    (hl : s.m_received_search_message = true) (hm : m.type = MessageType.ChannelStatus)
    (hd : env.decode_status m = some d) (hf : sender_found d sender = true) :
    message_received env s sender m =
      match ChannelMap.find
          (forwarded env (ChannelCall.message_received sender m) s.m_channels) m.payload with
      | some c =>
        complete_join env { s with
          m_event_log := s.m_event_log ++
            [{ sender := sender, type := RoomEventType.Message, message := m }]
          m_channels := ChannelMap.assign
            (forwarded env (ChannelCall.message_received sender m) s.m_channels) m.payload
            (c.call (ChannelCall.confirm_participant sender)) }
      | none =>
        match replay env { ctor := ChannelCtor.from_status d, calls := [] }
            (s.m_event_log ++
              [{ sender := sender, type := RoomEventType.Message, message := m }]) with
        | Except.error f => Except.error f
        | Except.ok c0 =>
          complete_join env { s with
            m_event_log := s.m_event_log ++
              [{ sender := sender, type := RoomEventType.Message, message := m }]
            m_channels := ChannelMap.assign
              (ChannelMap.assign
                (forwarded env (ChannelCall.message_received sender m) s.m_channels)
                m.payload c0)
              m.payload (c0.call (ChannelCall.confirm_participant sender)) } := by
  simp only [message_received, process_event_message, if_pos hl, hm]
  unfold status_received
  simp only [hl, hd, hf, ChannelMap.count, create_channel, Bool.not_true, Bool.false_eq_true,
    if_false]
  cases hfind : ChannelMap.find
      (forwarded env (ChannelCall.message_received sender m) s.m_channels) m.payload with
  | some c =>
    simp [call_at_found _ _ _ c hfind]
  | none =>
    simp only [Option.isSome_none, Bool.not_false, if_true]
    cases hrep : replay env { ctor := ChannelCtor.from_status d, calls := [] }
        (s.m_event_log ++ [{ sender := sender, type := RoomEventType.Message, message := m }]) with
    | error f => rfl
    | ok c0 =>
      simp [call_at_found _ _ _ c0 (find_assign_same _ _ _)]

theorem call_getLast (c : Channel) (x : ChannelCall) :
    (c.call x).calls.getLast? = some x := by
  simp [Channel.call]

/-- C3 (amended): in a latched state with no join pending, a decodable ChannelStatus
message with payload ID whose sender is in one of its two participant lists, received
while the replay cannot reach the failing assertion of send_event (assertions compiled
out, or only Message events logged), makes message_received return with ID a candidate
key whose handle received confirm_participant(sender) as its last call. The handle is the
previous one, with the message and the confirmation added, when ID was a key and its
handle did not report empty() on receiving the message; it is a fresh handle built by
create_channel from the status message when ID was not a key, and also when ID was a key
whose handle reported empty() on receiving the message and was erased. -/
theorem status_creates_or_confirms (env : Env) (s : ChannelSearch) (sender : String)
    (m : Message) (d : ChannelStatusMessage)
    (hl : s.m_received_search_message = true) (hj : s.m_joining_channel_id = "")
    (hm : m.type = MessageType.ChannelStatus) (hd : env.decode_status m = some d)
    (hs : (∃ p ∈ d.participants, p.username = sender)
      ∨ (∃ p ∈ d.unauthorized_participants, p.username = sender))
    (hsorted : ChannelMap.sorted s.m_channels)
    (hreplay : env.ndebug = true ∨ ∀ e ∈ s.m_event_log, e.type = RoomEventType.Message) :
    ∃ s1 h, message_received env s sender m = Except.ok s1
      ∧ ChannelMap.find s1.m_channels m.payload = some h
      ∧ h.calls.getLast? = some (ChannelCall.confirm_participant sender)
      ∧ (∀ c, ChannelMap.find s.m_channels m.payload = some c →
          env.empty (c.call (ChannelCall.message_received sender m)) = false →
          h = (c.call (ChannelCall.message_received sender m)).call
                (ChannelCall.confirm_participant sender))
      ∧ ((ChannelMap.find s.m_channels m.payload = none
            ∨ ∃ c, ChannelMap.find s.m_channels m.payload = some c
                ∧ env.empty (c.call (ChannelCall.message_received sender m)) = true) →
          ∃ c0, create_channel env
                { s with m_event_log := s.m_event_log ++
                    [{ sender := sender, type := RoomEventType.Message, message := m }] } d
              = Except.ok c0
            ∧ c0.ctor = ChannelCtor.from_status d
            ∧ h = c0.call (ChannelCall.confirm_participant sender)) := by
  have hf : sender_found d sender = true := (sender_found_iff d sender).2 hs
  have hrep : env.ndebug = true ∨ ∀ e ∈ s.m_event_log ++
      [{ sender := sender, type := RoomEventType.Message, message := m }],
      e.type = RoomEventType.Message := by
    rcases hreplay with h | h
    · exact Or.inl h
    · right
      intro e he
      rcases List.mem_append.1 he with h1 | h1
      · exact h e h1
      · simp only [List.mem_singleton] at h1
        rw [h1]
  obtain ⟨c0, hc0, hctor⟩ := replay_returns env
    { ctor := ChannelCtor.from_status d, calls := [] } _ hrep
  rw [message_received_status env s sender m d hl hm hd hf]
  have fresh_case : ChannelMap.find
      (forwarded env (ChannelCall.message_received sender m) s.m_channels) m.payload = none →
      ∃ s1 h, (match ChannelMap.find
          (forwarded env (ChannelCall.message_received sender m) s.m_channels) m.payload with
        | some c =>
          complete_join env { s with
            m_event_log := s.m_event_log ++
              [{ sender := sender, type := RoomEventType.Message, message := m }]
            m_channels := ChannelMap.assign
              (forwarded env (ChannelCall.message_received sender m) s.m_channels) m.payload
              (c.call (ChannelCall.confirm_participant sender)) }
        | none =>
          match replay env { ctor := ChannelCtor.from_status d, calls := [] }
              (s.m_event_log ++
                [{ sender := sender, type := RoomEventType.Message, message := m }]) with
          | Except.error f => Except.error f
          | Except.ok c0 =>
            complete_join env { s with
              m_event_log := s.m_event_log ++
                [{ sender := sender, type := RoomEventType.Message, message := m }]
              m_channels := ChannelMap.assign
                (ChannelMap.assign
                  (forwarded env (ChannelCall.message_received sender m) s.m_channels)
                  m.payload c0)
                m.payload (c0.call (ChannelCall.confirm_participant sender)) }) = Except.ok s1
        ∧ ChannelMap.find s1.m_channels m.payload = some h
        ∧ h = c0.call (ChannelCall.confirm_participant sender) := by
    intro hnone
    rw [hnone]
    simp only [hc0]
    rw [complete_join_idle env _ (by exact hj)]
    exact ⟨_, _, rfl, find_assign_same _ _ _, rfl⟩
  cases hfind : ChannelMap.find s.m_channels m.payload with
  | none =>
    obtain ⟨s1, h, h1, h2, h3⟩ := fresh_case (find_forwarded_none env _ _ _ hfind)
    refine ⟨s1, h, h1, h2, ?_, ?_, ?_⟩
    · rw [h3]; exact call_getLast _ _
    · intro c hc; cases hc
    · intro _
      exact ⟨c0, hc0, hctor, h3⟩
  | some c =>
    cases he : env.empty (c.call (ChannelCall.message_received sender m)) with
    | true =>
      obtain ⟨s1, h, h1, h2, h3⟩ :=
        fresh_case (find_forwarded_evict env _ _ _ c hsorted hfind he)
      refine ⟨s1, h, h1, h2, ?_, ?_, ?_⟩
      · rw [h3]; exact call_getLast _ _
      · intro c1 hc1 he1
        cases hc1
        rw [he] at he1
        cases he1
      · intro _
        exact ⟨c0, hc0, hctor, h3⟩
    | false =>
      rw [find_forwarded_keep env _ _ _ c hfind he]
      simp only
      rw [complete_join_idle env _ (by exact hj)]
      refine ⟨_, _, rfl, find_assign_same _ _ _, call_getLast _ _, ?_, ?_⟩
      · intro c1 hc1 _
        cases hc1
        rfl
      · rintro (h | ⟨c1, hc1, he1⟩)
        · cases h
        · cases hc1
          rw [he] at he1
          cases he1

/-- C4: in a latched state, a decodable ChannelStatus message whose sender is in neither
participants nor unauthorized_participants makes message_received return without creating
or confirming anything: the candidate keys afterwards are among those before, and every
handle still stored received the message itself as its one and only new call. -/
theorem status_without_sender_is_dropped (env : Env) (s : ChannelSearch) (sender : String)
    (m : Message) (d : ChannelStatusMessage)
    (hl : s.m_received_search_message = true)
    (hm : m.type = MessageType.ChannelStatus) (hd : env.decode_status m = some d)
    (hp : ∀ p ∈ d.participants, p.username ≠ sender)
    (hu : ∀ p ∈ d.unauthorized_participants, p.username ≠ sender) :
    ∃ s1, message_received env s sender m = Except.ok s1
      ∧ (∀ k ∈ s1.m_channels.keys, k ∈ s.m_channels.keys)
      ∧ (∀ k c1, (k, c1) ∈ s1.m_channels →
          ∃ c, (k, c) ∈ s.m_channels
            ∧ c1 = c.call (ChannelCall.message_received sender m))
      ∧ s1.m_joining_channel_id = s.m_joining_channel_id
      ∧ s1.m_room = s.m_room := by
  have hf : sender_found d sender = false := by
    cases hb : sender_found d sender
    · rfl
    · exfalso
      rcases (sender_found_iff d sender).1 hb with ⟨p, h1, h2⟩ | ⟨p, h1, h2⟩
      · exact hp p h1 h2
      · exact hu p h1 h2
  simp only [message_received, process_event_message, if_pos hl, hm]
  unfold status_received
  simp only [hl, hd, hf, Bool.not_true, Bool.false_eq_true, if_false, Bool.not_false, if_true]
  refine ⟨_, rfl, ?_, ?_, rfl, rfl⟩
  · exact forwarded_keys_subset env _ _
  · intro k c1 hmem
    obtain ⟨c, h1, h2, _⟩ := (mem_forwarded env _ _ k c1).1 hmem
    exact ⟨c, h1, h2⟩

/-- What `message_received` computes for a decodable announcement in a latched state. -/
theorem message_received_announcement (env : Env) (s : ChannelSearch) (sender : String)
    (m : Message) (d : ChannelAnnouncementMessage)
    (hl : s.m_received_search_message = true)
    (hm : m.type = MessageType.ChannelAnnouncement)
    (hd : env.decode_announcement m = some d) :
    message_received env s sender m =
      complete_join env { s with
        m_event_log := s.m_event_log ++
          [{ sender := sender, type := RoomEventType.Message, message := m }]
        m_channels :=
          match ChannelMap.find
              (forwarded env (ChannelCall.message_received sender m) s.m_channels)
              (m.payload ++ sender) with
          | some c =>
            ChannelMap.assign
              (forwarded env (ChannelCall.message_received sender m) s.m_channels)
              (m.payload ++ sender) (c.call (ChannelCall.confirm_participant sender))
          | none =>
            ChannelMap.assign
              (ChannelMap.assign
                (forwarded env (ChannelCall.message_received sender m) s.m_channels)
                (m.payload ++ sender)
                { ctor := ChannelCtor.from_announcement d sender, calls := [] })
              (m.payload ++ sender)
              { ctor := ChannelCtor.from_announcement d sender
                calls := [ChannelCall.confirm_participant sender] } } := by
  simp only [message_received, process_event_message, if_pos hl, hm]
  unfold announcement_received
  simp only [hl, hd, ChannelMap.count, Bool.not_true, Bool.false_eq_true, if_false]
  cases hfind : ChannelMap.find
      (forwarded env (ChannelCall.message_received sender m) s.m_channels)
      (m.payload ++ sender) with
  | some c =>
    simp [call_at_found _ _ _ c hfind]
  | none =>
    simp [call_at_found _ _ _ _ (find_assign_same _ _ _), Channel.call]

/-- C5: in a latched state with no join pending, a decodable ChannelAnnouncement with
payload P from sender s makes message_received return with P ++ s a candidate key whose
handle received confirm_participant(s) as its last call; when that key was absent, the
handle is the one constructed from (announcement, s) and confirm_participant(s) is the
only call it ever received, so nothing of event_log was replayed into it. -/
theorem announcement_creates_or_confirms (env : Env) (s : ChannelSearch) (sender : String)
    (m : Message) (d : ChannelAnnouncementMessage)
    (hl : s.m_received_search_message = true) (hj : s.m_joining_channel_id = "")
    (hm : m.type = MessageType.ChannelAnnouncement)
    (hd : env.decode_announcement m = some d) :
    ∃ s1 h, message_received env s sender m = Except.ok s1
      ∧ ChannelMap.find s1.m_channels (m.payload ++ sender) = some h
      ∧ h.calls.getLast? = some (ChannelCall.confirm_participant sender)
      ∧ (ChannelMap.find s.m_channels (m.payload ++ sender) = none →
          h = { ctor := ChannelCtor.from_announcement d sender
                calls := [ChannelCall.confirm_participant sender] }) := by
  rw [message_received_announcement env s sender m d hl hm hd]
  rw [complete_join_idle env _ (by exact hj)]
  cases hfind : ChannelMap.find
      (forwarded env (ChannelCall.message_received sender m) s.m_channels)
      (m.payload ++ sender) with
  | some c =>
    refine ⟨_, _, rfl, find_assign_same _ _ _, call_getLast _ _, ?_⟩
    intro hnone
    rw [find_forwarded_none env _ _ _ hnone] at hfind
    cases hfind
  | none =>
    exact ⟨_, _, rfl, find_assign_same _ _ _, rfl, fun _ => rfl⟩

/-- C6 (amended): in a latched state whose log holds Message events only, an admitted
ChannelStatus message e whose identifier is not yet a candidate key creates a handle that
is fed by replay every event_log entry that precedes e, in order, and then e itself
(process_event has appended e to the log before create_channel runs), and after the
replay receives confirm_participant(sender). The handle is stored under the identifier
before the join-completion check runs, and message_received returns that state when no
join is pending. -/
theorem created_handle_replay (env : Env) (s : ChannelSearch) (sender : String)
    (m : Message) (d : ChannelStatusMessage)
    (hl : s.m_received_search_message = true)
    (hm : m.type = MessageType.ChannelStatus) (hd : env.decode_status m = some d)
    (hs : (∃ p ∈ d.participants, p.username = sender)
      ∨ (∃ p ∈ d.unauthorized_participants, p.username = sender))
    (hnew : ChannelMap.find s.m_channels m.payload = none)
    (hlog : ∀ e ∈ s.m_event_log, e.type = RoomEventType.Message) :
    ∃ s2, message_received env s sender m = complete_join env s2
      ∧ ChannelMap.find s2.m_channels m.payload = some
          { ctor := ChannelCtor.from_status d
            calls := s.m_event_log.map
                (fun e => ChannelCall.message_received e.sender e.message)
              ++ [ChannelCall.message_received sender m,
                  ChannelCall.confirm_participant sender] }
      ∧ (s.m_joining_channel_id = "" →
          message_received env s sender m = Except.ok s2) := by
  have hf : sender_found d sender = true := (sender_found_iff d sender).2 hs
  have hrep : ∀ e ∈ s.m_event_log ++
      [{ sender := sender, type := RoomEventType.Message, message := m }],
      e.type = RoomEventType.Message := by
    intro e he
    rcases List.mem_append.1 he with h1 | h1
    · exact hlog e h1
    · simp only [List.mem_singleton] at h1
      rw [h1]
  rw [message_received_status env s sender m d hl hm hd hf]
  rw [find_forwarded_none env _ _ _ hnew]
  simp only [replay_messages env _ _ hrep]
  refine ⟨_, rfl, ?_, ?_⟩
  · rw [find_assign_same]
    simp [Channel.call]
  · intro hj
    exact complete_join_idle env _ (by exact hj)

/-! ## Forwarding by event variant -/

/-- C7: what send_event does with each variant. A Message event is forwarded as exactly
one message_received(sender, message). A Join or a Leave event takes none of the three
forwarding branches, because each of them tests for the Message variant: the handle
receives no call, and the call stops at assert(false) unless assertions are compiled
out. In the late-discovery scenario (Join(frank) and Leave(gina) logged, then a status
message creating ID2) the build with assertions aborts in the replay, and the build
without them creates a handle that has received neither user_joined(frank) nor
user_left(gina). -/
theorem send_event_forwards_messages_only (env : Env) (c : Channel) (sender : String)
    (msg : Message) :
    send_event env c { sender := sender, type := RoomEventType.Message, message := msg }
        = Except.ok (c.call (ChannelCall.message_received sender msg))
    ∧ send_event env c { sender := sender, type := RoomEventType.Join, message := msg }
        = (if env.ndebug = true then Except.ok c else Except.error Fault.assertion_failed)
    ∧ send_event env c { sender := sender, type := RoomEventType.Leave, message := msg }
        = (if env.ndebug = true then Except.ok c else Except.error Fault.assertion_failed)
    ∧ message_received quiet_env late_discovery "bob" status_ID2
        = Except.error Fault.assertion_failed
    ∧ message_received quiet_release_env late_discovery "bob" status_ID2
        = Except.ok { late_discovery with
            m_event_log := [join_frank, leave_gina,
              { sender := "bob", type := RoomEventType.Message, message := status_ID2 }]
            m_channels := [("ID2",
              { ctor := ChannelCtor.from_status bob_carol
                calls := [ChannelCall.message_received "bob" status_ID2,
                          ChannelCall.confirm_participant "bob"] })] } := by
  refine ⟨send_event_message env c sender msg, ?_, ?_, ?_, ?_⟩
  · cases h : env.ndebug <;> simp [send_event, assert_, h]
  · cases h : env.ndebug <;> simp [send_event, assert_, h]
  · rfl
  · rfl

/-! ## Eviction of empty candidates -/

theorem dispatch_nonempty (env : Env) (event : RoomEvent) (m m1 : ChannelMap)
    (h : dispatch env event m = Except.ok m1) : ∀ kc ∈ m1, env.empty kc.2 = false := by
  induction m generalizing m1 with
  | nil =>
    simp only [dispatch] at h
    cases h
    intro kc hkc
    cases hkc
  | cons kc0 rest ih =>
    obtain ⟨k, c⟩ := kc0
    unfold dispatch at h
    cases hs : send_event env c event with
    | error f => simp only [hs] at h; cases h
    | ok c1 =>
      cases hd : dispatch env event rest with
      | error f => simp only [hs, hd] at h; cases h
      | ok rest1 =>
        simp only [hs, hd] at h
        cases he : env.empty c1 with
        | true =>
          simp only [he, if_true] at h
          cases h
          exact ih _ hd
        | false =>
          simp only [he, Bool.false_eq_true, if_false] at h
          cases h
          intro kc hkc
          rcases List.mem_cons.1 hkc with h1 | h1
          · rw [h1]
            exact he
          · exact ih _ hd kc h1

theorem process_event_nonempty (env : Env) (s s1 : ChannelSearch) (event : RoomEvent)
    (hr : Reachable env s) (h : process_event env s event = Except.ok s1) :
    ∀ kc ∈ s1.m_channels, env.empty kc.2 = false := by
  cases hl : s.m_received_search_message with
  | false =>
    rw [process_event_unlatched env s event hl] at h
    cases h
    rw [(reachable_unlatched env s hr hl).1]
    intro kc hkc
    cases hkc
  | true =>
    unfold process_event at h
    simp only [hl, Bool.not_true, Bool.false_eq_true, if_false] at h
    split at h
    · cases h
    · next m hm =>
      cases h
      exact dispatch_nonempty env event _ m hm

theorem complete_join_mem (env : Env) (s s1 : ChannelSearch)
    (h : complete_join env s = Except.ok s1) : ∀ kc ∈ s1.m_channels, kc ∈ s.m_channels := by
  rcases complete_join_cases env s with h1 | ⟨_, c, _, _, h1⟩ | ⟨_, _, h1⟩
  · rw [h1] at h; cases h; exact fun _ hkc => hkc
  · rw [h1] at h; cases h; intro kc hkc; cases hkc
  · rw [h1] at h; cases h

theorem mem_assign (m : ChannelMap) (k : String) (c : Channel) (kc : String × Channel)
    (h : kc ∈ ChannelMap.assign m k c) : kc.1 = k ∨ kc ∈ m := by
  induction m with
  | nil =>
    simp only [ChannelMap.assign, List.mem_singleton] at h
    left; rw [h]
  | cons kc0 rest ih =>
    obtain ⟨k1, c1⟩ := kc0
    unfold ChannelMap.assign at h
    split at h
    · rcases List.mem_cons.1 h with h1 | h1
      · left; rw [h1]
      · right; exact List.mem_cons_of_mem _ h1
    · split at h
      · rcases List.mem_cons.1 h with h1 | h1
        · left; rw [h1]
        · right; exact h1
      · rcases List.mem_cons.1 h with h1 | h1
        · right; rw [h1]; exact List.mem_cons_self _ _
        · rcases ih h1 with h2 | h2
          · left; exact h2
          · right; exact List.mem_cons_of_mem _ h2

theorem mem_call_at (m m1 : ChannelMap) (k : String) (x : ChannelCall)
    (h : ChannelMap.call_at m k x = Except.ok m1) :
    ∀ kc ∈ m1, kc.1 = k ∨ kc ∈ m := by
  unfold ChannelMap.call_at at h
  split at h
  · cases h
  · cases h
    exact fun kc hkc => mem_assign _ _ _ kc hkc

theorem status_received_mem (env : Env) (s s1 : ChannelSearch) (sender : String)
    (m : Message) (h : status_received env s sender m = Except.ok s1) :
    ∀ kc ∈ s1.m_channels, kc.1 = m.payload ∨ kc ∈ s.m_channels := by
  unfold status_received at h
  split at h
  · cases h; exact fun _ hkc => Or.inr hkc
  · split at h
    · cases h; exact fun _ hkc => Or.inr hkc
    · split at h
      · cases h; exact fun _ hkc => Or.inr hkc
      · simp only at h
        split at h
        · cases h
        · next m0 hm0 =>
          split at h
          · cases h
          · next m1 hm1 =>
            intro kc hkc
            have h2 := complete_join_mem env _ s1 h kc hkc
            rcases mem_call_at _ _ _ _ hm1 kc h2 with h3 | h3
            · exact Or.inl h3
            · split at hm0
              · split at hm0
                · cases hm0
                · cases hm0
                  rcases mem_assign _ _ _ kc h3 with h4 | h4
                  · exact Or.inl h4
                  · exact Or.inr h4
              · cases hm0
                exact Or.inr h3

theorem announcement_received_mem (env : Env) (s s1 : ChannelSearch) (sender : String)
    (m : Message) (h : announcement_received env s sender m = Except.ok s1) :
    ∀ kc ∈ s1.m_channels, kc.1 = m.payload ++ sender ∨ kc ∈ s.m_channels := by
  unfold announcement_received at h
  split at h
  · cases h; exact fun _ hkc => Or.inr hkc
  · split at h
    · cases h; exact fun _ hkc => Or.inr hkc
    · simp only at h
      split at h
      · cases h
      · next m1 hm1 =>
        intro kc hkc
        have h2 := complete_join_mem env _ s1 h kc hkc
        rcases mem_call_at _ _ _ _ hm1 kc h2 with h3 | h3
        · exact Or.inl h3
        · split at h3
          · rcases mem_assign _ _ _ kc h3 with h4 | h4
            · exact Or.inl h4
            · exact Or.inr h4
          · exact Or.inr h3

theorem search_received_mem (env : Env) (s s1 : ChannelSearch) (sender : String)
    (m : Message) (h : search_received env s sender m = Except.ok s1) :
    ∀ kc ∈ s1.m_channels, kc ∈ s.m_channels := by
  unfold search_received at h
  split at h
  · cases h; exact fun _ hkc => hkc
  · split at h
    · exact fun kc hkc => complete_join_mem env _ s1 h kc hkc
    · exact fun kc hkc => complete_join_mem env _ s1 h kc hkc

/-- C8 (amended): after an event sink returns from a reachable state, a handle stored in
candidates reports empty() only if the sink was message_received and the handle is the
one this very message created or confirmed: the entry of the payload for a ChannelStatus
message, the entry of payload ++ sender for a ChannelAnnouncement. Every other handle,
and every handle after user_joined or user_left, reports empty() == false. -/
theorem empty_candidates_after_event (env : Env) (s s1 : ChannelSearch) (e : Inbound)
    (k : String) (c : Channel)
    (hr : Reachable env s) (h : deliver env s e = Except.ok s1)
    (hmem : (k, c) ∈ s1.m_channels) (hempty : env.empty c = true) :
    ∃ sender m, e = Inbound.message sender m
      ∧ ((m.type = MessageType.ChannelStatus ∧ k = m.payload)
        ∨ (m.type = MessageType.ChannelAnnouncement ∧ k = m.payload ++ sender)) := by
  cases e with
  | join sender =>
    have := process_event_nonempty env s s1 _ hr h (k, c) hmem
    rw [hempty] at this
    cases this
  | leave sender =>
    have := process_event_nonempty env s s1 _ hr h (k, c) hmem
    rw [hempty] at this
    cases this
  | message sender m =>
    refine ⟨sender, m, rfl, ?_⟩
    simp only [deliver, message_received] at h
    split at h
    · cases h
    · next s0 hs0 =>
      have hne := process_event_nonempty env s s0 _ hr hs0
      have hold : (k, c) ∈ s0.m_channels → False := by
        intro h0
        have := hne (k, c) h0
        rw [hempty] at this
        cases this
      split at h
      · exact (hold (search_received_mem env s0 s1 sender m h (k, c) hmem)).elim
      · next hty =>
        rcases status_received_mem env s0 s1 sender m h (k, c) hmem with h1 | h1
        · exact Or.inl ⟨hty, h1⟩
        · exact (hold h1).elim
      · next hty =>
        rcases announcement_received_mem env s0 s1 sender m h (k, c) hmem with h1 | h1
        · exact Or.inr ⟨hty, h1⟩
        · exact (hold h1).elim
      · exact (hold (complete_join_mem env s0 s1 h (k, c) hmem)).elim

/-- C8 (as stated, refuted): with handles that report empty(), the reachable state
`latched` receives bob's status message for ID1, message_received returns, and the
candidate it has just created and confirmed is stored although it reports empty(). -/
theorem fresh_candidate_may_be_empty :
    Reachable hollow_env latched
    ∧ message_received hollow_env latched "bob" status_ID1 = Except.ok with_ID1
    ∧ ("ID1", handle_ID1) ∈ with_ID1.m_channels
    ∧ hollow_env.empty handle_ID1 = true :=
  ⟨Reachable.message_received searching latched "alice" probe_echo
      (Reachable.search (ChannelSearch.new alice_room "") "N" (Reachable.new alice_room ""))
      rfl,
    rfl, List.mem_cons_self _ _, rfl⟩

/-! ## The pending join -/

/-- C9: a run in which the invariant breaks. Bob's status message creates ID1, the user
selects it with join_channel, then carol's undecodable status message makes the handle
of ID1 report empty(): process_event erases it, message_received returns early at the
decode failure, and the controller is left with joining_identifier set to ID1 while ID1
is no candidate key. The next message of another type dereferences the null handle. -/
theorem joining_identifier_can_dangle :
    Reachable fading_env stranded
    ∧ stranded.m_joining_channel_id = "ID1"
    ∧ ChannelMap.find stranded.m_channels "ID1" = none
    ∧ message_received fading_env stranded "bob" { type := MessageType.Other 0, payload := "" }
        = Except.error Fault.null_dereference :=
  ⟨Reachable.message_received joining_ID1 stranded "carol" farewell
      (Reachable.join_channel with_ID1 joining_ID1 (fading_env.hash_hex "ID1")
        (Reachable.message_received latched with_ID1 "bob" status_ID1
          (Reachable.message_received searching latched "alice" probe_echo
            (Reachable.search (ChannelSearch.new alice_room "") "N"
              (Reachable.new alice_room ""))
            rfl)
          rfl)
        rfl)
      rfl,
    rfl, rfl, rfl⟩

/-! ## Selecting a candidate by fingerprint -/

theorem find_identifier_first (env : Env) (m : ChannelMap) (h : String)
    (hex : ∃ k ∈ m.keys, env.hash_hex k = h) :
    ∃ pre K c post, m = pre ++ (K, c) :: post
      ∧ (∀ p ∈ pre, env.hash_hex p.1 ≠ h)
      ∧ env.hash_hex K = h
      ∧ find_identifier env m h = K := by
  induction m with
  | nil =>
    obtain ⟨k, hk, _⟩ := hex
    simp [ChannelMap.keys] at hk
  | cons kc rest ih =>
    obtain ⟨k1, c1⟩ := kc
    by_cases h1 : env.hash_hex k1 = h
    · refine ⟨[], k1, c1, rest, rfl, ?_, h1, ?_⟩
      · intro p hp; cases hp
      · simp [find_identifier, h1]
    · have hex1 : ∃ k ∈ ChannelMap.keys rest, env.hash_hex k = h := by
        obtain ⟨k, hk, hkh⟩ := hex
        simp only [ChannelMap.keys, List.map_cons, List.mem_cons] at hk
        rcases hk with hk | hk
        · subst hk; exact absurd hkh h1
        · exact ⟨k, hk, hkh⟩
      obtain ⟨pre, K, c, post, e1, e2, e3, e4⟩ := ih hex1
      refine ⟨(k1, c1) :: pre, K, c, post, by rw [e1]; rfl, ?_, e3, ?_⟩
      · intro p hp
        rcases List.mem_cons.1 hp with hp | hp
        · rw [hp]; exact h1
        · exact e2 p hp
      · simp [find_identifier, h1, e4]

theorem sorted_split (pre post : ChannelMap) (K : String) (c c1 : Channel)
    (hs : ChannelMap.sorted (pre ++ (K, c) :: post)) :
    ChannelMap.find (pre ++ (K, c) :: post) K = some c
    ∧ ChannelMap.assign (pre ++ (K, c) :: post) K c1 = pre ++ (K, c1) :: post := by
  induction pre with
  | nil => simp [ChannelMap.find, ChannelMap.assign]
  | cons kc rest ih =>
    obtain ⟨k0, c0⟩ := kc
    have hlt : key_lt k0 K = true := by
      apply sorted_head_lt k0 c0 (rest ++ (K, c) :: post) hs
      simp [ChannelMap.keys]
    have hne : k0 ≠ K := by
      intro he
      rw [he, key_lt_irrefl] at hlt
      cases hlt
    have hnlt : key_lt K k0 = false := key_lt_asymm k0 K hlt
    obtain ⟨ih1, ih2⟩ := ih (sorted_tail _ _ hs)
    constructor
    · simp only [List.cons_append, ChannelMap.find, hne, if_false]
      exact ih1
    · simp only [List.cons_append, ChannelMap.assign, hne, if_false, hnlt, Bool.false_eq_true]
      exact congrArg (fun t => (k0, c0) :: t) ih2

/-- C10 (amended): in a state with no join pending, for every identifier I that is a key
of candidates there is a first key K, in iteration order, whose fingerprint equals
fingerprint(I); when K is not the empty string, join_channel(fingerprint(I)) returns
with joining_identifier set to K, with join() called exactly once on the handle of K and
on no other handle, and with the candidate keys and everything else unchanged. -/
theorem join_channel_first_match (env : Env) (s : ChannelSearch) (I : String)
    (hj : s.m_joining_channel_id = "") (hsorted : ChannelMap.sorted s.m_channels)
    (hI : I ∈ s.m_channels.keys) :
    ∃ pre K c post, s.m_channels = pre ++ (K, c) :: post
      ∧ (∀ p ∈ pre, env.hash_hex p.1 ≠ env.hash_hex I)
      ∧ env.hash_hex K = env.hash_hex I
      ∧ (K ≠ "" → join_channel env s (env.hash_hex I) = Except.ok
          { s with
            m_joining_channel_id := K
            m_channels := pre ++ (K, c.call ChannelCall.join) :: post }) := by
  obtain ⟨pre, K, c, post, e1, e2, e3, e4⟩ :=
    find_identifier_first env s.m_channels (env.hash_hex I) ⟨I, hI, rfl⟩
  refine ⟨pre, K, c, post, e1, e2, e3, ?_⟩
  intro hK
  rw [e1] at hsorted
  obtain ⟨f1, f2⟩ := sorted_split pre post K c (c.call ChannelCall.join) hsorted
  rw [← e1] at f1 f2
  simp [join_channel, assert_, hj, e4, hK, ChannelMap.call_at, f1, f2]

/-- C10 (as stated, refuted): in the state `nameless` the empty string is a candidate
key and no join is pending, yet join_channel(fingerprint of the empty string) returns
the state unchanged: joining_identifier stays unset and join() is called on no handle. -/
theorem join_channel_skips_empty_identifier :
    Reachable quiet_env nameless
    ∧ "" ∈ nameless.m_channels.keys
    ∧ nameless.m_joining_channel_id = ""
    ∧ join_channel quiet_env nameless (quiet_env.hash_hex "") = Except.ok nameless :=
  ⟨Reachable.message_received latched nameless "bob" status_nameless
      (Reachable.message_received searching latched "alice" probe_echo
        (Reachable.search (ChannelSearch.new alice_room "") "N"
          (Reachable.new alice_room ""))
        rfl)
      rfl,
    List.mem_cons_self _ _, rfl, rfl⟩

/-! ## The claims at concrete inputs -/

theorem message_received_probe_latch_witness :
    probe_echo.type = MessageType.ChannelSearch
    ∧ ((message_received quiet_env searching "alice" probe_echo
          = Except.error Fault.null_dereference
        ∧ searching.m_joining_channel_id ≠ "")
      ∨ ∃ s1, message_received quiet_env searching "alice" probe_echo = Except.ok s1
        ∧ (s1.m_received_search_message = true ↔
            searching.m_received_search_message = true
            ∨ ∃ d, quiet_env.decode_search probe_echo = some d
                ∧ "alice" = searching.m_room.username
                ∧ d.nonce = searching.m_search_nonce)) :=
  ⟨rfl, message_received_probe_latch quiet_env searching "alice" probe_echo rfl⟩

theorem unlatched_event_changes_nothing_witness :
    Reachable quiet_env searching
    ∧ searching.m_received_search_message = false
    ∧ ¬ Inbound.latches quiet_env searching (Inbound.message "bob" status_ID1)
    ∧ deliver quiet_env searching (Inbound.message "bob" status_ID1) = Except.ok searching :=
  ⟨Reachable.search (ChannelSearch.new alice_room "") "N" (Reachable.new alice_room ""),
    rfl,
    fun h => MessageType.noConfusion h.1,
    unlatched_event_changes_nothing quiet_env searching (Inbound.message "bob" status_ID1)
      (Reachable.search (ChannelSearch.new alice_room "") "N" (Reachable.new alice_room ""))
      rfl (fun h => MessageType.noConfusion h.1)⟩

/-- C3 (as stated, refuted): ID1 is a candidate key, created by carol's status message.
Bob's status message for ID1 makes its handle report empty(), so process_event erases
the entry, and message_received then builds a fresh handle with create_channel although
ID1 was already a key: the handle stored afterwards never received carol's
confirm_participant. -/
theorem status_rebuilds_erased_candidate :
    Reachable brittle_env with_carol_ID1
    ∧ with_carol_ID1.m_received_search_message = true
    ∧ with_carol_ID1.m_joining_channel_id = ""
    ∧ ChannelMap.find with_carol_ID1.m_channels "ID1" = some carol_handle
    ∧ create_channel brittle_env
        { with_carol_ID1 with
          m_event_log := [message_event "carol" status_ID1, message_event "bob" status_ID1]
          m_channels := [] }
        bob_carol = Except.ok rebuilt_handle
    ∧ message_received brittle_env with_carol_ID1 "bob" status_ID1
        = Except.ok { with_carol_ID1 with
            m_event_log := [message_event "carol" status_ID1, message_event "bob" status_ID1]
            m_channels :=
              [("ID1", rebuilt_handle.call (ChannelCall.confirm_participant "bob"))] }
    ∧ rebuilt_handle.call (ChannelCall.confirm_participant "bob")
        ≠ (carol_handle.call (ChannelCall.message_received "bob" status_ID1)).call
            (ChannelCall.confirm_participant "bob") :=
  ⟨Reachable.message_received latched with_carol_ID1 "carol" status_ID1
      (Reachable.message_received searching latched "alice" probe_echo
        (Reachable.search (ChannelSearch.new alice_room "") "N"
          (Reachable.new alice_room ""))
        rfl)
      rfl,
    rfl, rfl, rfl, rfl, rfl, by decide⟩

theorem status_creates_or_confirms_witness :
    with_ID1.m_received_search_message = true
    ∧ with_ID1.m_joining_channel_id = ""
    ∧ ChannelMap.sorted with_ID1.m_channels
    ∧ ∃ s1 h, message_received quiet_env with_ID1 "carol" status_ID1 = Except.ok s1
      ∧ ChannelMap.find s1.m_channels status_ID1.payload = some h
      ∧ h.calls.getLast? = some (ChannelCall.confirm_participant "carol")
      ∧ (∀ c, ChannelMap.find with_ID1.m_channels status_ID1.payload = some c →
          quiet_env.empty (c.call (ChannelCall.message_received "carol" status_ID1)) = false →
          h = (c.call (ChannelCall.message_received "carol" status_ID1)).call
                (ChannelCall.confirm_participant "carol"))
      ∧ ((ChannelMap.find with_ID1.m_channels status_ID1.payload = none
            ∨ ∃ c, ChannelMap.find with_ID1.m_channels status_ID1.payload = some c
                ∧ quiet_env.empty
                    (c.call (ChannelCall.message_received "carol" status_ID1)) = true) →
          ∃ c0, create_channel quiet_env
                { with_ID1 with m_event_log := with_ID1.m_event_log ++
                    [{ sender := "carol", type := RoomEventType.Message,
                       message := status_ID1 }] } bob_carol
              = Except.ok c0
            ∧ c0.ctor = ChannelCtor.from_status bob_carol
            ∧ h = c0.call (ChannelCall.confirm_participant "carol")) :=
  ⟨rfl, rfl, by simp [ChannelMap.sorted, ChannelMap.keys, with_ID1],
    status_creates_or_confirms quiet_env with_ID1 "carol" status_ID1 bob_carol rfl rfl rfl rfl
      (Or.inl ⟨{ username := "carol" }, by simp [bob_carol], rfl⟩)
      (by simp [ChannelMap.sorted, ChannelMap.keys, with_ID1])
      (Or.inr (by simp [with_ID1, message_event]))⟩

theorem status_without_sender_is_dropped_witness :
    with_ID1.m_received_search_message = true
    ∧ (∀ p ∈ bob_carol.participants, p.username ≠ "eve")
    ∧ (∀ p ∈ bob_carol.unauthorized_participants, p.username ≠ "eve")
    ∧ ∃ s1, message_received quiet_env with_ID1 "eve" status_ID2 = Except.ok s1
      ∧ (∀ k ∈ s1.m_channels.keys, k ∈ with_ID1.m_channels.keys)
      ∧ (∀ k c1, (k, c1) ∈ s1.m_channels →
          ∃ c, (k, c) ∈ with_ID1.m_channels
            ∧ c1 = c.call (ChannelCall.message_received "eve" status_ID2))
      ∧ s1.m_joining_channel_id = with_ID1.m_joining_channel_id
      ∧ s1.m_room = with_ID1.m_room :=
  ⟨rfl, by decide, by decide,
    status_without_sender_is_dropped quiet_env with_ID1 "eve" status_ID2 bob_carol rfl rfl rfl
      (by decide) (by decide)⟩

theorem announcement_creates_or_confirms_witness :
    with_ID1.m_received_search_message = true
    ∧ with_ID1.m_joining_channel_id = ""
    ∧ ∃ s1 h, message_received quiet_env with_ID1 "dave" announcement_P = Except.ok s1
      ∧ ChannelMap.find s1.m_channels (announcement_P.payload ++ "dave") = some h
      ∧ h.calls.getLast? = some (ChannelCall.confirm_participant "dave")
      ∧ (ChannelMap.find with_ID1.m_channels (announcement_P.payload ++ "dave") = none →
          h = { ctor := ChannelCtor.from_announcement { body := "P" } "dave"
                calls := [ChannelCall.confirm_participant "dave"] }) :=
  ⟨rfl, rfl,
    announcement_creates_or_confirms quiet_env with_ID1 "dave" announcement_P { body := "P" }
      rfl rfl rfl rfl⟩

/-- C6 (as stated, refuted): in the state `latched` nothing is logged, so no entry
precedes bob's status message for ID1; yet the replay of create_channel delivers that
message to the new handle, which has received it before confirm_participant("bob"). -/
theorem replay_delivers_the_trigger :
    latched.m_received_search_message = true
    ∧ latched.m_event_log = []
    ∧ ChannelMap.find latched.m_channels "ID1" = none
    ∧ create_channel quiet_env
        { latched with m_event_log := [message_event "bob" status_ID1] } bob_carol
        = Except.ok { ctor := ChannelCtor.from_status bob_carol
                      calls := [ChannelCall.message_received "bob" status_ID1] }
    ∧ message_received quiet_env latched "bob" status_ID1 = Except.ok with_ID1
    ∧ ChannelMap.find with_ID1.m_channels "ID1" = some
        { ctor := ChannelCtor.from_status bob_carol
          calls := [ChannelCall.message_received "bob" status_ID1,
                    ChannelCall.confirm_participant "bob"] } :=
  ⟨rfl, rfl, rfl, rfl, rfl, rfl⟩

theorem created_handle_replay_witness :
    with_ID1.m_received_search_message = true
    ∧ ChannelMap.find with_ID1.m_channels status_ID2.payload = none
    ∧ (∀ e ∈ with_ID1.m_event_log, e.type = RoomEventType.Message)
    ∧ ∃ s2, message_received quiet_env with_ID1 "bob" status_ID2 = complete_join quiet_env s2
      ∧ ChannelMap.find s2.m_channels status_ID2.payload = some
          { ctor := ChannelCtor.from_status bob_carol
            calls := with_ID1.m_event_log.map
                (fun e => ChannelCall.message_received e.sender e.message)
              ++ [ChannelCall.message_received "bob" status_ID2,
                  ChannelCall.confirm_participant "bob"] }
      ∧ (with_ID1.m_joining_channel_id = "" →
          message_received quiet_env with_ID1 "bob" status_ID2 = Except.ok s2) :=
  ⟨rfl, rfl, by simp [with_ID1, message_event],
    created_handle_replay quiet_env with_ID1 "bob" status_ID2 bob_carol rfl rfl rfl
      (Or.inl ⟨{ username := "bob" }, by simp [bob_carol], rfl⟩) rfl
      (by simp [with_ID1, message_event])⟩

theorem empty_candidates_after_event_witness :
    Reachable hollow_env latched
    ∧ deliver hollow_env latched (Inbound.message "bob" status_ID1) = Except.ok with_ID1
    ∧ ("ID1", handle_ID1) ∈ with_ID1.m_channels
    ∧ hollow_env.empty handle_ID1 = true
    ∧ ∃ sender m, Inbound.message "bob" status_ID1 = Inbound.message sender m
      ∧ ((m.type = MessageType.ChannelStatus ∧ "ID1" = m.payload)
        ∨ (m.type = MessageType.ChannelAnnouncement ∧ "ID1" = m.payload ++ sender)) :=
  ⟨Reachable.message_received searching latched "alice" probe_echo
      (Reachable.search (ChannelSearch.new alice_room "") "N" (Reachable.new alice_room ""))
      rfl,
    rfl, List.mem_cons_self _ _, rfl,
    empty_candidates_after_event hollow_env latched with_ID1 (Inbound.message "bob" status_ID1)
      "ID1" handle_ID1
      (Reachable.message_received searching latched "alice" probe_echo
        (Reachable.search (ChannelSearch.new alice_room "") "N" (Reachable.new alice_room ""))
        rfl)
      rfl (List.mem_cons_self _ _) rfl⟩

theorem join_channel_first_match_witness :
    with_ID1.m_joining_channel_id = ""
    ∧ ChannelMap.sorted with_ID1.m_channels
    ∧ "ID1" ∈ with_ID1.m_channels.keys
    ∧ ∃ pre K c post, with_ID1.m_channels = pre ++ (K, c) :: post
      ∧ (∀ p ∈ pre, quiet_env.hash_hex p.1 ≠ quiet_env.hash_hex "ID1")
      ∧ quiet_env.hash_hex K = quiet_env.hash_hex "ID1"
      ∧ (K ≠ "" → join_channel quiet_env with_ID1 (quiet_env.hash_hex "ID1") = Except.ok
          { with_ID1 with
            m_joining_channel_id := K
            m_channels := pre ++ (K, c.call ChannelCall.join) :: post }) :=
  ⟨rfl, by simp [ChannelMap.sorted, ChannelMap.keys, with_ID1], List.mem_cons_self _ _,
    join_channel_first_match quiet_env with_ID1 "ID1" rfl
      (by simp [ChannelMap.sorted, ChannelMap.keys, with_ID1]) (List.mem_cons_self _ _)⟩

/-! ## `message_received` as discovery followed by the closing statement -/

theorem search_received_eq_conclude (env : Env) (s : ChannelSearch) (sender : String)
    (m : Message) :
    search_received env s sender m = conclude env (search_discovery env s sender m) := by
  unfold search_received search_discovery
  cases env.decode_search m with
  | none => rfl
  | some d =>
    dsimp only
    by_cases hc : sender = s.m_room.username ∧ d.nonce = s.m_search_nonce
    · rw [if_pos hc, if_pos hc]; rfl
    · rw [if_neg hc, if_neg hc]; rfl

theorem status_received_eq_conclude (env : Env) (s : ChannelSearch) (sender : String)
    (m : Message) :
    status_received env s sender m =
      match status_discovery env s sender m with
      | Except.error f => Except.error f
      | Except.ok flow => conclude env flow := by
  unfold status_received status_discovery
  cases hl : s.m_received_search_message with
  | false => rfl
  | true =>
    simp only [Bool.not_true, Bool.false_eq_true, if_false]
    cases env.decode_status m with
    | none => rfl
    | some d =>
      dsimp only
      cases hf : sender_found d sender with
      | false => rfl
      | true =>
        simp only [Bool.not_true, Bool.false_eq_true, if_false]
        cases hc : ChannelMap.count s.m_channels m.payload with
        | true =>
          simp only [Bool.not_true, Bool.false_eq_true, if_false]
          cases ChannelMap.call_at s.m_channels m.payload
              (ChannelCall.confirm_participant sender) with
          | error f => rfl
          | ok m1 => rfl
        | false =>
          simp only [Bool.not_false, if_true]
          cases create_channel env s d with
          | error f => rfl
          | ok c0 =>
            dsimp only
            cases ChannelMap.call_at (ChannelMap.assign s.m_channels m.payload c0) m.payload
                (ChannelCall.confirm_participant sender) with
            | error f => rfl
            | ok m1 => rfl

theorem announcement_received_eq_conclude (env : Env) (s : ChannelSearch) (sender : String)
    (m : Message) :
    announcement_received env s sender m =
      match announcement_discovery env s sender m with
      | Except.error f => Except.error f
      | Except.ok flow => conclude env flow := by
  unfold announcement_received announcement_discovery
  cases hl : s.m_received_search_message with
  | false => rfl
  | true =>
    simp only [Bool.not_true, Bool.false_eq_true, if_false]
    cases env.decode_announcement m with
    | none => rfl
    | some d =>
      dsimp only
      generalize (if (!ChannelMap.count s.m_channels (m.payload ++ sender)) = true then
          ChannelMap.assign s.m_channels (m.payload ++ sender)
            { ctor := ChannelCtor.from_announcement d sender, calls := [] }
        else s.m_channels) = reg
      cases ChannelMap.call_at reg (m.payload ++ sender)
          (ChannelCall.confirm_participant sender) with
      | error f => rfl
      | ok m1 => rfl

/-- The member `message_received` is its discovery part followed by `conclude`. -/
theorem message_received_eq_conclude (env : Env) (s : ChannelSearch) (sender : String)
    (m : Message) :
    message_received env s sender m =
      match discovery env s sender m with
      | Except.error f => Except.error f
      | Except.ok flow => conclude env flow := by
  unfold message_received discovery
  simp only [process_event_message]
  cases hty : m.type with
  | ChannelSearch => exact search_received_eq_conclude env _ sender m
  | ChannelStatus => exact status_received_eq_conclude env _ sender m
  | ChannelAnnouncement => exact announcement_received_eq_conclude env _ sender m
  | Other tag => rfl

theorem process_event_frame (env : Env) (s s1 : ChannelSearch) (event : RoomEvent)
    (h : process_event env s event = Except.ok s1) :
    s1.m_room = s.m_room ∧ s1.m_joining_channel_id = s.m_joining_channel_id
      ∧ s1.m_search_nonce = s.m_search_nonce := by
  unfold process_event at h
  split at h
  · cases h; exact ⟨rfl, rfl, rfl⟩
  · simp only at h
    split at h
    · cases h
    · cases h; exact ⟨rfl, rfl, rfl⟩

theorem status_discovery_frame (env : Env) (s : ChannelSearch) (sender : String)
    (m : Message) (flow : Flow) (h : status_discovery env s sender m = Except.ok flow) :
    flow.state.m_room = s.m_room
      ∧ flow.state.m_joining_channel_id = s.m_joining_channel_id := by
  unfold status_discovery at h
  split at h
  · cases h; exact ⟨rfl, rfl⟩
  · split at h
    · cases h; exact ⟨rfl, rfl⟩
    · split at h
      · cases h; exact ⟨rfl, rfl⟩
      · simp only at h
        split at h
        · cases h
        · split at h
          · cases h
          · cases h; exact ⟨rfl, rfl⟩

theorem announcement_discovery_frame (env : Env) (s : ChannelSearch) (sender : String)
    (m : Message) (flow : Flow)
    (h : announcement_discovery env s sender m = Except.ok flow) :
    flow.state.m_room = s.m_room
      ∧ flow.state.m_joining_channel_id = s.m_joining_channel_id := by
  unfold announcement_discovery at h
  split at h
  · cases h; exact ⟨rfl, rfl⟩
  · split at h
    · cases h; exact ⟨rfl, rfl⟩
    · simp only at h
      split at h
      · cases h
      · cases h; exact ⟨rfl, rfl⟩

theorem search_discovery_frame (env : Env) (s : ChannelSearch) (sender : String)
    (m : Message) :
    (search_discovery env s sender m).state.m_room = s.m_room
      ∧ (search_discovery env s sender m).state.m_joining_channel_id
          = s.m_joining_channel_id := by
  unfold search_discovery
  split
  · exact ⟨rfl, rfl⟩
  · split <;> exact ⟨rfl, rfl⟩

/-- The discovery part of `message_received` hands nothing to the room and leaves the
pending identifier alone. -/
theorem discovery_frame (env : Env) (s : ChannelSearch) (sender : String) (m : Message)
    (flow : Flow) (h : discovery env s sender m = Except.ok flow) :
    flow.state.m_room = s.m_room
      ∧ flow.state.m_joining_channel_id = s.m_joining_channel_id := by
  unfold discovery at h
  simp only at h
  split at h
  · cases h
  · next s0 hs0 =>
    obtain ⟨f1, f2, _⟩ := process_event_frame env s s0 _ hs0
    split at h
    · cases h
      obtain ⟨g1, g2⟩ := search_discovery_frame env s0 sender m
      exact ⟨g1.trans f1, g2.trans f2⟩
    · obtain ⟨g1, g2⟩ := status_discovery_frame env s0 sender m flow h
      exact ⟨g1.trans f1, g2.trans f2⟩
    · obtain ⟨g1, g2⟩ := announcement_discovery_frame env s0 sender m flow h
      exact ⟨g1.trans f1, g2.trans f2⟩
    · cases h
      exact ⟨f1, f2⟩

/-! ## Unknown fingerprints -/

theorem find_identifier_none (env : Env) (m : ChannelMap) (h : String)
    (hno : ∀ k ∈ m.keys, env.hash_hex k ≠ h) : find_identifier env m h = "" := by
  induction m with
  | nil => rfl
  | cons kc rest ih =>
    obtain ⟨k, c⟩ := kc
    have h1 : env.hash_hex k ≠ h := hno k (by simp [ChannelMap.keys])
    have h2 : ∀ j ∈ ChannelMap.keys rest, env.hash_hex j ≠ h := by
      intro j hj
      apply hno j
      simp only [ChannelMap.keys, List.map_cons, List.mem_cons]
      exact Or.inr hj
    simp only [find_identifier, h1, if_false]
    exact ih h2

/-- C11: in a state with no join pending, join_channel(h) for a string h that is the
fingerprint of no candidate key returns the state unchanged: joining_identifier stays
unset, candidates is the same, join() is called on no handle. -/
theorem join_channel_unknown_fingerprint (env : Env) (s : ChannelSearch) (h : String)
    (hj : s.m_joining_channel_id = "")
    (hno : ∀ k ∈ s.m_channels.keys, env.hash_hex k ≠ h) :
    join_channel env s h = Except.ok s := by
  simp [join_channel, assert_, hj, find_identifier_none env s.m_channels h hno]

theorem join_channel_unknown_fingerprint_witness :
    with_ID1.m_joining_channel_id = ""
    ∧ (∀ k ∈ with_ID1.m_channels.keys, quiet_env.hash_hex k ≠ "#ID9")
    ∧ join_channel quiet_env with_ID1 "#ID9" = Except.ok with_ID1 :=
  ⟨rfl, by decide,
    join_channel_unknown_fingerprint quiet_env with_ID1 "#ID9" rfl (by decide)⟩

/-! ## Searching again -/

/-- C14: whatever the state, search() leaves probe_observed false and
joining_identifier, event_log and candidates empty, stores the nonce it drew and hands
the room one ChannelSearch message carrying that nonce. A second search() right after
gives the same controller state as a single search() with the second nonce; only the
room has seen both probes. -/
theorem search_twice (env : Env) (s : ChannelSearch) (n1 n2 : String) :
    search env s n1 =
        { m_room := s.m_room.send_message (env.encode_search { nonce := n1 })
          m_received_search_message := false
          m_joining_channel_id := ""
          m_event_log := []
          m_channels := []
          m_search_nonce := n1 }
    ∧ { search env (search env s n1) n2 with m_room := s.m_room }
        = { search env s n2 with m_room := s.m_room }
    ∧ (search env s n1).m_room.sent = s.m_room.sent ++ [env.encode_search { nonce := n1 }]
    ∧ (search env (search env s n1) n2).m_room.sent
        = s.m_room.sent
            ++ [env.encode_search { nonce := n1 }, env.encode_search { nonce := n2 }]
    ∧ (search env (search env s n1) n2).m_search_nonce = n2 := by
  refine ⟨rfl, rfl, rfl, ?_, rfl⟩
  simp [search, Room.send_message]

/-! ## The handover -/

theorem complete_join_handover (env : Env) (s : ChannelSearch) (c : Channel)
    (hj : s.m_joining_channel_id ≠ "")
    (hc : ChannelMap.find s.m_channels s.m_joining_channel_id = some c)
    (hjoined : env.joined c = true) :
    complete_join env s = Except.ok { s with
      m_channels := []
      m_joining_channel_id := ""
      m_room := s.m_room.joined_channel c } := by
  simp [complete_join, hj, hc, hjoined]

theorem search_discovery_closing (env : Env) (s : ChannelSearch) (sender : String)
    (m : Message) (d : ChannelSearchMessage) (hd : env.decode_search m = some d) :
    ∃ s2, search_discovery env s sender m = Flow.closing s2 := by
  unfold search_discovery
  rw [hd]
  dsimp only
  by_cases hc : sender = s.m_room.username ∧ d.nonce = s.m_search_nonce
  · rw [if_pos hc]; exact ⟨_, rfl⟩
  · rw [if_neg hc]; exact ⟨_, rfl⟩

theorem status_discovery_closing (env : Env) (s : ChannelSearch) (sender : String)
    (m : Message) (d : ChannelStatusMessage)
    (hl : s.m_received_search_message = true) (hd : env.decode_status m = some d)
    (hf : sender_found d sender = true)
    (hrep : env.ndebug = true ∨ ∀ e ∈ s.m_event_log, e.type = RoomEventType.Message) :
    ∃ s2, status_discovery env s sender m = Except.ok (Flow.closing s2) := by
  obtain ⟨c0, hc0, _⟩ := replay_returns env
    { ctor := ChannelCtor.from_status d, calls := [] } _ hrep
  unfold status_discovery
  simp only [hl, hd, hf, Bool.not_true, Bool.false_eq_true, if_false, ChannelMap.count,
    create_channel, hc0]
  cases hfind : ChannelMap.find s.m_channels m.payload with
  | some c =>
    simp only [Option.isSome_some, Bool.not_true, Bool.false_eq_true, if_false,
      call_at_found _ _ _ c hfind]
    exact ⟨_, rfl⟩
  | none =>
    simp only [Option.isSome_none, Bool.not_false, if_true,
      call_at_found _ _ _ c0 (find_assign_same _ _ _)]
    exact ⟨_, rfl⟩

theorem announcement_discovery_closing (env : Env) (s : ChannelSearch) (sender : String)
    (m : Message) (d : ChannelAnnouncementMessage)
    (hl : s.m_received_search_message = true) (hd : env.decode_announcement m = some d) :
    ∃ s2, announcement_discovery env s sender m = Except.ok (Flow.closing s2) := by
  unfold announcement_discovery
  simp only [hl, hd, Bool.not_true, Bool.false_eq_true, if_false]
  by_cases hcount : ChannelMap.count s.m_channels (m.payload ++ sender) = true
  · obtain ⟨c, hc⟩ := Option.isSome_iff_exists.1 hcount
    simp only [hcount, Bool.not_true, Bool.false_eq_true, if_false,
      call_at_found _ _ _ c hc]
    exact ⟨_, rfl⟩
  · simp only [hcount, Bool.not_false, if_true,
      call_at_found _ _ _ _ (find_assign_same _ _ _)]
    exact ⟨_, rfl⟩

/-- The paths of `message_received` that arrive at its closing statement. -/
theorem discovery_reaches_closing (env : Env) (s : ChannelSearch) (sender : String)
    (m : Message)
    (hpath : (∃ tag, m.type = MessageType.Other tag)
      ∨ (m.type = MessageType.ChannelSearch ∧ ∃ d, env.decode_search m = some d)
      ∨ (m.type = MessageType.ChannelStatus ∧ s.m_received_search_message = true
          ∧ (env.ndebug = true ∨ ∀ e ∈ s.m_event_log, e.type = RoomEventType.Message)
          ∧ ∃ d, env.decode_status m = some d
            ∧ ((∃ p ∈ d.participants, p.username = sender)
              ∨ (∃ p ∈ d.unauthorized_participants, p.username = sender)))
      ∨ (m.type = MessageType.ChannelAnnouncement ∧ s.m_received_search_message = true
          ∧ ∃ d, env.decode_announcement m = some d)) :
    ∃ s2, discovery env s sender m = Except.ok (Flow.closing s2) := by
  unfold discovery
  simp only [process_event_message]
  rcases hpath with ⟨tag, hty⟩ | ⟨hty, d, hd⟩ | ⟨hty, hl, hreplay, d, hd, hs⟩
    | ⟨hty, hl, d, hd⟩
  · rw [hty]
    exact ⟨_, rfl⟩
  · rw [hty]
    obtain ⟨s2, h2⟩ := search_discovery_closing env
      (if s.m_received_search_message = true then
        { s with
          m_event_log := s.m_event_log ++
            [{ sender := sender, type := RoomEventType.Message, message := m }]
          m_channels := forwarded env (ChannelCall.message_received sender m) s.m_channels }
      else s) sender m d hd
    exact ⟨s2, by simp only [h2]⟩
  · rw [hty]
    simp only [if_pos hl]
    refine status_discovery_closing env _ sender m d (by exact hl) hd
      ((sender_found_iff d sender).2 hs) ?_
    rcases hreplay with h | h
    · exact Or.inl h
    · right
      intro e he
      rcases List.mem_append.1 he with h1 | h1
      · exact h e h1
      · simp only [List.mem_singleton] at h1
        rw [h1]
  · rw [hty]
    simp only [if_pos hl]
    exact announcement_discovery_closing env _ sender m d (by exact hl) hd

/-- C12 (amended): when message_received arrives at its closing statement, which it does
for a message of a kind it does not inspect, for a ChannelSearch message that decodes,
and in a latched state for an admitted ChannelStatus message (the replay not reaching
the failing assertion of send_event) and for a ChannelAnnouncement that decodes, then if
joining_identifier is set and the corresponding handle reports joined() == true the
handover is performed in that same event tick: the handle is passed to
room.joined_channel and candidates and joining_identifier are cleared. The sinks
user_joined and user_left run no join-completion check: they hand nothing to the room
and leave joining_identifier as it is. -/
theorem closing_statement_hands_over (env : Env) (s : ChannelSearch) (sender : String)
    (m : Message)
    (hpath : (∃ tag, m.type = MessageType.Other tag)
      ∨ (m.type = MessageType.ChannelSearch ∧ ∃ d, env.decode_search m = some d)
      ∨ (m.type = MessageType.ChannelStatus ∧ s.m_received_search_message = true
          ∧ (env.ndebug = true ∨ ∀ e ∈ s.m_event_log, e.type = RoomEventType.Message)
          ∧ ∃ d, env.decode_status m = some d
            ∧ ((∃ p ∈ d.participants, p.username = sender)
              ∨ (∃ p ∈ d.unauthorized_participants, p.username = sender)))
      ∨ (m.type = MessageType.ChannelAnnouncement ∧ s.m_received_search_message = true
          ∧ ∃ d, env.decode_announcement m = some d)) :
    (∃ s2, discovery env s sender m = Except.ok (Flow.closing s2)
      ∧ ∀ c, s2.m_joining_channel_id ≠ "" →
          ChannelMap.find s2.m_channels s2.m_joining_channel_id = some c →
          env.joined c = true →
          message_received env s sender m = Except.ok { s2 with
            m_channels := []
            m_joining_channel_id := ""
            m_room := s2.m_room.joined_channel c })
    ∧ (∀ u s1, user_joined env s u = Except.ok s1 →
        s1.m_room = s.m_room ∧ s1.m_joining_channel_id = s.m_joining_channel_id)
    ∧ (∀ u s1, user_left env s u = Except.ok s1 →
        s1.m_room = s.m_room ∧ s1.m_joining_channel_id = s.m_joining_channel_id) := by
  refine ⟨?_, ?_, ?_⟩
  · obtain ⟨s2, h2⟩ := discovery_reaches_closing env s sender m hpath
    refine ⟨s2, h2, ?_⟩
    intro c hj hc hjoined
    rw [message_received_eq_conclude, h2]
    exact complete_join_handover env s2 c hj hc hjoined
  · intro u s1 h
    obtain ⟨h1, h2, _⟩ := process_event_frame env s s1 _ h
    exact ⟨h1, h2⟩
  · intro u s1 h
    obtain ⟨h1, h2, _⟩ := process_event_frame env s s1 _ h
    exact ⟨h1, h2⟩

theorem closing_statement_hands_over_witness :
    ((∃ tag, welcome.type = MessageType.Other tag)
      ∨ (welcome.type = MessageType.ChannelSearch
          ∧ ∃ d, eager_env.decode_search welcome = some d)
      ∨ (welcome.type = MessageType.ChannelStatus
          ∧ joining_ID1.m_received_search_message = true
          ∧ (eager_env.ndebug = true
            ∨ ∀ e ∈ joining_ID1.m_event_log, e.type = RoomEventType.Message)
          ∧ ∃ d, eager_env.decode_status welcome = some d
            ∧ ((∃ p ∈ d.participants, p.username = "bob")
              ∨ (∃ p ∈ d.unauthorized_participants, p.username = "bob")))
      ∨ (welcome.type = MessageType.ChannelAnnouncement
          ∧ joining_ID1.m_received_search_message = true
          ∧ ∃ d, eager_env.decode_announcement welcome = some d))
    ∧ message_received eager_env joining_ID1 "bob" welcome = Except.ok handed_over
    ∧ ((∃ s2, discovery eager_env joining_ID1 "bob" welcome = Except.ok (Flow.closing s2)
        ∧ ∀ c, s2.m_joining_channel_id ≠ "" →
            ChannelMap.find s2.m_channels s2.m_joining_channel_id = some c →
            eager_env.joined c = true →
            message_received eager_env joining_ID1 "bob" welcome = Except.ok { s2 with
              m_channels := []
              m_joining_channel_id := ""
              m_room := s2.m_room.joined_channel c })
      ∧ (∀ u s1, user_joined eager_env joining_ID1 u = Except.ok s1 →
          s1.m_room = joining_ID1.m_room
            ∧ s1.m_joining_channel_id = joining_ID1.m_joining_channel_id)
      ∧ (∀ u s1, user_left eager_env joining_ID1 u = Except.ok s1 →
          s1.m_room = joining_ID1.m_room
            ∧ s1.m_joining_channel_id = joining_ID1.m_joining_channel_id)) :=
  ⟨Or.inl ⟨7, rfl⟩, rfl,
    closing_statement_hands_over eager_env joining_ID1 "bob" welcome (Or.inl ⟨7, rfl⟩)⟩

/-- C12 (as stated, refuted): two ticks after which a join is pending, the joining
handle reports joined() and yet nothing was handed over. In a build with assertions,
carol's undecodable status message makes the handle of ID1 report joined(), and
message_received returns at the decode failure before its closing statement. In a build
without assertions, with a handle that reports joined() as soon as join() was called,
user_left returns without any join-completion check. -/
theorem joined_handle_not_handed_over :
    Reachable keen_env joining_ID1
    ∧ message_received keen_env joining_ID1 "carol" farewell
        = Except.ok { joining_ID1 with
            m_event_log := [message_event "bob" status_ID1, message_event "carol" farewell]
            m_channels := [("ID1",
              (handle_ID1.call ChannelCall.join).call
                (ChannelCall.message_received "carol" farewell))] }
    ∧ keen_env.joined ((handle_ID1.call ChannelCall.join).call
        (ChannelCall.message_received "carol" farewell)) = true
    ∧ Reachable ready_env joining_ID1
    ∧ ChannelMap.find joining_ID1.m_channels joining_ID1.m_joining_channel_id
        = some (handle_ID1.call ChannelCall.join)
    ∧ ready_env.joined (handle_ID1.call ChannelCall.join) = true
    ∧ user_left ready_env joining_ID1 "gina"
        = Except.ok { joining_ID1 with
            m_event_log := [message_event "bob" status_ID1, leave_gina] } :=
  ⟨Reachable.join_channel with_ID1 joining_ID1 (keen_env.hash_hex "ID1")
      (Reachable.message_received latched with_ID1 "bob" status_ID1
        (Reachable.message_received searching latched "alice" probe_echo
          (Reachable.search (ChannelSearch.new alice_room "") "N"
            (Reachable.new alice_room ""))
          rfl)
        rfl)
      rfl,
    rfl, rfl,
    Reachable.join_channel with_ID1 joining_ID1 (ready_env.hash_hex "ID1")
      (Reachable.message_received latched with_ID1 "bob" status_ID1
        (Reachable.message_received searching latched "alice" probe_echo
          (Reachable.search (ChannelSearch.new alice_room "") "N"
            (Reachable.new alice_room ""))
          rfl)
        rfl)
      rfl,
    rfl, by decide, rfl⟩

/-- C13: whenever message_received hands a handle to the room, it had arrived at its
closing statement with a join pending, the handle handed over is the one stored under
joining_identifier at that moment, as it was when joined() was asked, it is the only
handle the room receives in that tick, and the state returned has candidates empty and
joining_identifier unset: nothing is left to receive a call. -/
theorem handover_clears_session (env : Env) (s s1 : ChannelSearch) (sender : String)
    (m : Message)
    (h : message_received env s sender m = Except.ok s1)
    (hh : s1.m_room.joined_channels ≠ s.m_room.joined_channels) :
    ∃ s2 c, discovery env s sender m = Except.ok (Flow.closing s2)
      ∧ s.m_joining_channel_id ≠ ""
      ∧ ChannelMap.find s2.m_channels s.m_joining_channel_id = some c
      ∧ env.joined c = true
      ∧ s1.m_room.joined_channels = s.m_room.joined_channels ++ [c]
      ∧ s1.m_channels = []
      ∧ s1.m_joining_channel_id = ""
      ∧ s1 = { s2 with
          m_channels := []
          m_joining_channel_id := ""
          m_room := s.m_room.joined_channel c } := by
  rw [message_received_eq_conclude] at h
  cases hd : discovery env s sender m with
  | error f => rw [hd] at h; cases h
  | ok flow =>
    rw [hd] at h
    obtain ⟨f1, f2⟩ := discovery_frame env s sender m flow hd
    cases flow with
    | returned s2 =>
      simp only [conclude] at h
      cases h
      exact absurd (by rw [← f1]; rfl) hh
    | closing s2 =>
      simp only [conclude] at h
      simp only [Flow.state] at f1 f2
      rcases complete_join_cases env s2 with h1 | ⟨hj, c, hc, hjoined, h1⟩ | ⟨_, _, h1⟩
      · rw [h1] at h
        cases h
        exact absurd (by rw [f1]) hh
      · rw [h1] at h
        cases h
        refine ⟨s2, c, rfl, ?_, ?_, hjoined, ?_, rfl, rfl, ?_⟩
        · rw [← f2]; exact hj
        · rw [← f2]; exact hc
        · simp only [Room.joined_channel, f1]
        · rw [f1]
      · rw [h1] at h
        cases h

theorem handover_clears_session_witness :
    message_received eager_env joining_ID1 "bob" welcome = Except.ok handed_over
    ∧ handed_over.m_room.joined_channels ≠ joining_ID1.m_room.joined_channels
    ∧ ∃ s2 c, discovery eager_env joining_ID1 "bob" welcome = Except.ok (Flow.closing s2)
      ∧ joining_ID1.m_joining_channel_id ≠ ""
      ∧ ChannelMap.find s2.m_channels joining_ID1.m_joining_channel_id = some c
      ∧ eager_env.joined c = true
      ∧ handed_over.m_room.joined_channels = joining_ID1.m_room.joined_channels ++ [c]
      ∧ handed_over.m_channels = []
      ∧ handed_over.m_joining_channel_id = ""
      ∧ handed_over = { s2 with
          m_channels := []
          m_joining_channel_id := ""
          m_room := joining_ID1.m_room.joined_channel c } :=
  ⟨rfl, by decide,
    handover_clears_session eager_env joining_ID1 handed_over "bob" welcome rfl (by decide)⟩

/-! ## When `message_received` returns, and what it logs -/

theorem status_discovery_returns (env : Env) (s : ChannelSearch) (sender : String)
    (m : Message)
    (hrep : env.ndebug = true ∨ ∀ e ∈ s.m_event_log, e.type = RoomEventType.Message) :
    ∃ flow, status_discovery env s sender m = Except.ok flow := by
  cases hl : s.m_received_search_message with
  | false => exact ⟨Flow.returned s, by simp [status_discovery, hl]⟩
  | true =>
    cases hd : env.decode_status m with
    | none => exact ⟨Flow.returned s, by simp [status_discovery, hl, hd]⟩
    | some d =>
      cases hf : sender_found d sender with
      | false => exact ⟨Flow.returned s, by simp [status_discovery, hl, hd, hf]⟩
      | true =>
        obtain ⟨s2, h2⟩ := status_discovery_closing env s sender m d hl hd hf hrep
        exact ⟨_, h2⟩

theorem announcement_discovery_returns (env : Env) (s : ChannelSearch) (sender : String)
    (m : Message) :
    ∃ flow, announcement_discovery env s sender m = Except.ok flow := by
  cases hl : s.m_received_search_message with
  | false => exact ⟨Flow.returned s, by simp [announcement_discovery, hl]⟩
  | true =>
    cases hd : env.decode_announcement m with
    | none => exact ⟨Flow.returned s, by simp [announcement_discovery, hl, hd]⟩
    | some d =>
      obtain ⟨s2, h2⟩ := announcement_discovery_closing env s sender m d hl hd
      exact ⟨_, h2⟩

theorem status_discovery_log (env : Env) (s : ChannelSearch) (sender : String)
    (m : Message) (flow : Flow) (h : status_discovery env s sender m = Except.ok flow) :
    flow.state.m_event_log = s.m_event_log
      ∧ flow.state.m_received_search_message = s.m_received_search_message := by
  unfold status_discovery at h
  split at h
  · cases h; exact ⟨rfl, rfl⟩
  · split at h
    · cases h; exact ⟨rfl, rfl⟩
    · split at h
      · cases h; exact ⟨rfl, rfl⟩
      · simp only at h
        split at h
        · cases h
        · split at h
          · cases h
          · cases h; exact ⟨rfl, rfl⟩

theorem announcement_discovery_log (env : Env) (s : ChannelSearch) (sender : String)
    (m : Message) (flow : Flow)
    (h : announcement_discovery env s sender m = Except.ok flow) :
    flow.state.m_event_log = s.m_event_log
      ∧ flow.state.m_received_search_message = s.m_received_search_message := by
  unfold announcement_discovery at h
  split at h
  · cases h; exact ⟨rfl, rfl⟩
  · split at h
    · cases h; exact ⟨rfl, rfl⟩
    · simp only at h
      split at h
      · cases h
      · cases h; exact ⟨rfl, rfl⟩

theorem search_discovery_log (env : Env) (s : ChannelSearch) (sender : String)
    (m : Message) :
    (search_discovery env s sender m).state.m_event_log = s.m_event_log := by
  unfold search_discovery
  split
  · rfl
  · split <;> rfl

theorem complete_join_log (env : Env) (s s1 : ChannelSearch)
    (h : complete_join env s = Except.ok s1) : s1.m_event_log = s.m_event_log := by
  rcases complete_join_cases env s with h1 | ⟨_, c, _, _, h1⟩ | ⟨_, _, h1⟩
  · rw [h1] at h; cases h; rfl
  · rw [h1] at h; cases h; rfl
  · rw [h1] at h; cases h

/-- In a latched state `message_received` logs exactly the message it was given. -/
theorem message_received_log (env : Env) (s s1 : ChannelSearch) (sender : String)
    (m : Message) (hl : s.m_received_search_message = true)
    (h : message_received env s sender m = Except.ok s1) :
    s1.m_event_log = s.m_event_log ++
      [{ sender := sender, type := RoomEventType.Message, message := m }] := by
  simp only [message_received, process_event_message, if_pos hl] at h
  generalize hS0 : ({ s with
      m_event_log := s.m_event_log ++
        [{ sender := sender, type := RoomEventType.Message, message := m }]
      m_channels := forwarded env (ChannelCall.message_received sender m) s.m_channels }
    : ChannelSearch) = S0 at h
  have hlog0 : S0.m_event_log = s.m_event_log ++
      [{ sender := sender, type := RoomEventType.Message, message := m }] := by
    rw [← hS0]
  rw [← hlog0]
  split at h
  · rw [search_received_eq_conclude] at h
    have hlog := search_discovery_log env S0 sender m
    generalize search_discovery env S0 sender m = flow at h hlog
    cases flow with
    | returned s2 =>
      simp only [conclude] at h
      cases h
      exact hlog
    | closing s2 =>
      simp only [conclude] at h
      rw [complete_join_log env s2 s1 h]
      exact hlog
  · rw [status_received_eq_conclude] at h
    split at h
    · cases h
    · next flow hfl =>
      obtain ⟨hlog, _⟩ := status_discovery_log env S0 sender m flow hfl
      cases flow with
      | returned s2 =>
        simp only [conclude] at h
        cases h
        exact hlog
      | closing s2 =>
        simp only [conclude] at h
        rw [complete_join_log env s2 s1 h]
        exact hlog
  · rw [announcement_received_eq_conclude] at h
    split at h
    · cases h
    · next flow hfl =>
      obtain ⟨hlog, _⟩ := announcement_discovery_log env S0 sender m flow hfl
      cases flow with
      | returned s2 =>
        simp only [conclude] at h
        cases h
        exact hlog
      | closing s2 =>
        simp only [conclude] at h
        rw [complete_join_log env s2 s1 h]
        exact hlog
  · exact complete_join_log env S0 s1 h

/-- With no join pending, `message_received` returns unless the replay of
`create_channel` reaches the failing assertion of `send_event`. -/
theorem message_received_returns (env : Env) (s : ChannelSearch) (sender : String)
    (m : Message) (hj : s.m_joining_channel_id = "")
    (hrep : env.ndebug = true ∨ ∀ e ∈ s.m_event_log, e.type = RoomEventType.Message) :
    ∃ s1, message_received env s sender m = Except.ok s1 := by
  have hdisc : ∃ flow, discovery env s sender m = Except.ok flow := by
    unfold discovery
    simp only [process_event_message]
    cases hty : m.type with
    | ChannelSearch => exact ⟨_, rfl⟩
    | ChannelStatus =>
      apply status_discovery_returns
      rcases hrep with h | h
      · exact Or.inl h
      · right
        split
        · intro e he
          rcases List.mem_append.1 he with h1 | h1
          · exact h e h1
          · simp only [List.mem_singleton] at h1
            rw [h1]
        · exact h
    | ChannelAnnouncement => exact announcement_discovery_returns env _ sender m
    | Other tag => exact ⟨_, rfl⟩
  obtain ⟨flow, hflow⟩ := hdisc
  obtain ⟨_, f2⟩ := discovery_frame env s sender m flow hflow
  rw [message_received_eq_conclude, hflow]
  cases flow with
  | returned s2 => exact ⟨s2, rfl⟩
  | closing s2 =>
    simp only [Flow.state] at f2
    exact ⟨s2, complete_join_idle env s2 (f2.trans hj)⟩

/-! ## The start of the event log -/

/-- C18: in a reachable state where the probe has not been observed, the message that
sets the latch returns with the latch set and event_log still empty, and whatever
inbound event comes next (a message of any kind, a join or a leave) returns with
event_log holding that event and nothing else. -/
theorem log_starts_after_probe (env : Env) (s : ChannelSearch) (e e2 : Inbound)
    (hr : Reachable env s) (hl : s.m_received_search_message = false)
    (hp : Inbound.latches env s e) :
    ∃ s1, deliver env s e = Except.ok s1
      ∧ s1.m_received_search_message = true
      ∧ s1.m_event_log = []
      ∧ ∃ s2, deliver env s1 e2 = Except.ok s2 ∧ s2.m_event_log = [e2.event] := by
  obtain ⟨hc, hlog, hj⟩ := reachable_unlatched env s hr hl
  cases e with
  | join sender => exact hp.elim
  | leave sender => exact hp.elim
  | message sender m =>
    refine ⟨{ s with m_received_search_message := true },
      message_received_probe env s sender m hl hj hp, rfl, hlog, ?_⟩
    cases e2 with
    | message sender2 m2 =>
      obtain ⟨s2, h2⟩ := message_received_returns env
        { s with m_received_search_message := true } sender2 m2 hj
        (Or.inr (by intro ev hev; rw [show ({ s with m_received_search_message := true }
          : ChannelSearch).m_event_log = [] from hlog] at hev; cases hev))
      refine ⟨s2, h2, ?_⟩
      have h3 := message_received_log env _ s2 sender2 m2 rfl h2
      rw [h3]
      simp only [hlog, List.nil_append, Inbound.event]
    | join sender2 =>
      refine ⟨{ s with m_received_search_message := true, m_event_log := [Inbound.event
        (Inbound.join sender2)] }, ?_, rfl⟩
      simp [deliver, user_joined, process_event, hc, hlog, dispatch, Inbound.event]
    | leave sender2 =>
      refine ⟨{ s with m_received_search_message := true, m_event_log := [Inbound.event
        (Inbound.leave sender2)] }, ?_, rfl⟩
      simp [deliver, user_left, process_event, hc, hlog, dispatch, Inbound.event]

theorem log_starts_after_probe_witness :
    Reachable quiet_env searching
    ∧ searching.m_received_search_message = false
    ∧ Inbound.latches quiet_env searching (Inbound.message "alice" probe_echo)
    ∧ ∃ s1, deliver quiet_env searching (Inbound.message "alice" probe_echo) = Except.ok s1
      ∧ s1.m_received_search_message = true
      ∧ s1.m_event_log = []
      ∧ ∃ s2, deliver quiet_env s1 (Inbound.join "frank") = Except.ok s2
        ∧ s2.m_event_log = [(Inbound.join "frank").event] :=
  ⟨Reachable.search (ChannelSearch.new alice_room "") "N" (Reachable.new alice_room ""),
    rfl, ⟨rfl, { nonce := "N" }, rfl, rfl, rfl⟩,
    log_starts_after_probe quiet_env searching (Inbound.message "alice" probe_echo)
      (Inbound.join "frank")
      (Reachable.search (ChannelSearch.new alice_room "") "N" (Reachable.new alice_room ""))
      rfl ⟨rfl, { nonce := "N" }, rfl, rfl, rfl⟩⟩

/-- C19: in every state reachable from the constructor through search, join_channel,
message_received, user_joined and user_left, if probe_observed is false then candidates
is empty, event_log is empty and joining_identifier is unset. -/
theorem unlatched_session_is_blank (env : Env) (s : ChannelSearch)
    (hr : Reachable env s) (hl : s.m_received_search_message = false) :
    s.m_channels = [] ∧ s.m_event_log = [] ∧ s.m_joining_channel_id = "" :=
  reachable_unlatched env s hr hl

theorem unlatched_session_is_blank_witness :
    Reachable quiet_env searching
    ∧ searching.m_received_search_message = false
    ∧ searching.m_channels = [] ∧ searching.m_event_log = []
    ∧ searching.m_joining_channel_id = "" :=
  ⟨Reachable.search (ChannelSearch.new alice_room "") "N" (Reachable.new alice_room ""),
    rfl,
    unlatched_session_is_blank quiet_env searching
      (Reachable.search (ChannelSearch.new alice_room "") "N" (Reachable.new alice_room ""))
      rfl⟩

/-! ## The fall-through of `send_event` -/

/-- C20: two runs in which an event passed to send_event takes none of the three
forwarding branches and reaches assert(false), in a build with assertions. Live
dispatch: with the candidate ID1 present, user_joined("frank") forwards a Join event to
its handle and aborts. Replay: after user_joined("frank") and user_left("gina") were
logged with no candidate present, bob's status message for ID2 makes create_channel
replay the Join event and abort. -/
theorem send_event_assertion_is_reachable :
    Reachable quiet_env with_ID1
    ∧ send_event quiet_env handle_ID1 join_frank = Except.error Fault.assertion_failed
    ∧ user_joined quiet_env with_ID1 "frank" = Except.error Fault.assertion_failed
    ∧ Reachable quiet_env late_discovery
    ∧ create_channel quiet_env
        { late_discovery with m_event_log := late_discovery.m_event_log ++
            [message_event "bob" status_ID2] } bob_carol
        = Except.error Fault.assertion_failed
    ∧ message_received quiet_env late_discovery "bob" status_ID2
        = Except.error Fault.assertion_failed :=
  ⟨Reachable.message_received latched with_ID1 "bob" status_ID1
      (Reachable.message_received searching latched "alice" probe_echo
        (Reachable.search (ChannelSearch.new alice_room "") "N"
          (Reachable.new alice_room ""))
        rfl)
      rfl,
    rfl, rfl,
    Reachable.user_left { latched with m_event_log := [join_frank] } late_discovery "gina"
      (Reachable.user_joined latched { latched with m_event_log := [join_frank] } "frank"
        (Reachable.message_received searching latched "alice" probe_echo
          (Reachable.search (ChannelSearch.new alice_room "") "N"
            (Reachable.new alice_room ""))
          rfl)
        rfl)
      rfl,
    rfl, rfl⟩

/-! ## The dispatcher, variant by variant -/

theorem send_event_other (env : Env) (c : Channel) (event : RoomEvent)
    (h : event.type ≠ RoomEventType.Message) :
    send_event env c event
      = if env.ndebug = true then Except.ok c else Except.error Fault.assertion_failed := by
  cases hn : env.ndebug <;> simp [send_event, h, assert_, hn]

theorem dispatch_other_ndebug (env : Env) (event : RoomEvent) (m : ChannelMap)
    (h : event.type ≠ RoomEventType.Message) (hn : env.ndebug = true) :
    dispatch env event m = Except.ok (m.filter (fun kc => !env.empty kc.2)) := by
  induction m with
  | nil => rfl
  | cons kc rest ih =>
    obtain ⟨k, c⟩ := kc
    simp only [dispatch, send_event_other env c event h, hn, if_true, ih, List.filter_cons]
    cases env.empty c <;> simp

theorem dispatch_other_debug (env : Env) (event : RoomEvent) (k : String) (c : Channel)
    (rest : ChannelMap)
    (h : event.type ≠ RoomEventType.Message) (hn : env.ndebug = false) :
    dispatch env event ((k, c) :: rest) = Except.error Fault.assertion_failed := by
  simp [dispatch, send_event_other env c event h, hn]

/-- C17: what process_event does in a latched state. A Message event is appended to
event_log and forwarded exactly once, as message_received, to every handle that was in
candidates, in key order; afterwards candidates holds exactly the previous entries
whose handle reports empty() == false after receiving it, in the same order. An event
of another variant (Join, Leave) is appended to event_log but forwarded to no handle:
with assertions compiled out the handles are only asked empty(), otherwise the call
aborts at the first candidate. -/
theorem process_event_forwarding (env : Env) (s : ChannelSearch) (sender : String)
    (msg : Message) (hl : s.m_received_search_message = true) :
    process_event env s { sender := sender, type := RoomEventType.Message, message := msg }
        = Except.ok { s with
            m_event_log := s.m_event_log ++
              [{ sender := sender, type := RoomEventType.Message, message := msg }]
            m_channels :=
              (s.m_channels.map
                (fun kc => (kc.1, kc.2.call (ChannelCall.message_received sender msg)))).filter
                (fun kc => !env.empty kc.2) }
    ∧ ∀ type, type ≠ RoomEventType.Message →
        process_event env s { sender := sender, type := type, message := msg }
          = if env.ndebug = true then
              Except.ok { s with
                m_event_log := s.m_event_log ++
                  [{ sender := sender, type := type, message := msg }]
                m_channels := s.m_channels.filter (fun kc => !env.empty kc.2) }
            else
              match s.m_channels with
              | [] => Except.ok { s with
                  m_event_log := s.m_event_log ++
                    [{ sender := sender, type := type, message := msg }] }
              | _ :: _ => Except.error Fault.assertion_failed := by
  constructor
  · rw [process_event_message, if_pos hl]
    rfl
  · intro type hty
    unfold process_event
    simp only [hl, Bool.not_true, Bool.false_eq_true, if_false]
    cases hn : env.ndebug with
    | true =>
      rw [dispatch_other_ndebug env _ _ hty hn]
      simp
    | false =>
      cases hm : s.m_channels with
      | nil => simp [dispatch]
      | cons kc rest =>
        obtain ⟨k, c⟩ := kc
        rw [dispatch_other_debug env _ k c rest hty hn]
        simp

theorem process_event_forwarding_witness :
    with_ID1.m_received_search_message = true
    ∧ user_left quiet_release_env with_ID1 "gina"
        = Except.ok { with_ID1 with
            m_event_log := [message_event "bob" status_ID1, leave_gina] }
    ∧ user_left quiet_env with_ID1 "gina" = Except.error Fault.assertion_failed
    ∧ (process_event quiet_env with_ID1
          { sender := "gina", type := RoomEventType.Message, message := welcome }
        = Except.ok { with_ID1 with
            m_event_log := with_ID1.m_event_log ++
              [{ sender := "gina", type := RoomEventType.Message, message := welcome }]
            m_channels :=
              (with_ID1.m_channels.map
                (fun kc => (kc.1, kc.2.call (ChannelCall.message_received "gina" welcome)))).filter
                (fun kc => !quiet_env.empty kc.2) }
      ∧ ∀ type, type ≠ RoomEventType.Message →
          process_event quiet_env with_ID1
              { sender := "gina", type := type, message := welcome }
            = if quiet_env.ndebug = true then
                Except.ok { with_ID1 with
                  m_event_log := with_ID1.m_event_log ++
                    [{ sender := "gina", type := type, message := welcome }]
                  m_channels := with_ID1.m_channels.filter (fun kc => !quiet_env.empty kc.2) }
              else
                match with_ID1.m_channels with
                | [] => Except.ok { with_ID1 with
                    m_event_log := with_ID1.m_event_log ++
                      [{ sender := "gina", type := type, message := welcome }] }
                | _ :: _ => Except.error Fault.assertion_failed) :=
  ⟨rfl, rfl, rfl, process_event_forwarding quiet_env with_ID1 "gina" welcome rfl⟩

/-! ## The same status message twice -/

/-- C15 (amended): in a latched state with no join pending, for an admitted ChannelStatus
message m from sender s whose identifier is not yet a candidate, the replay not reaching
the failing assertion of send_event, and provided the handle created by the first
delivery does not report empty() when m is dispatched to it again: delivering m twice in
a row constructs a handle on the first delivery only, and the second delivery adds to
that same handle the message and a second confirm_participant(s). -/
theorem status_twice (env : Env) (s : ChannelSearch) (sender : String)
    (m : Message) (d : ChannelStatusMessage)
    (hl : s.m_received_search_message = true) (hj : s.m_joining_channel_id = "")
    (hm : m.type = MessageType.ChannelStatus) (hd : env.decode_status m = some d)
    (hs : (∃ p ∈ d.participants, p.username = sender)
      ∨ (∃ p ∈ d.unauthorized_participants, p.username = sender))
    (hnew : ChannelMap.find s.m_channels m.payload = none)
    (hreplay : env.ndebug = true ∨ ∀ e ∈ s.m_event_log, e.type = RoomEventType.Message)
    (hkeep : ∀ c0, create_channel env
        { s with m_event_log := s.m_event_log ++
            [{ sender := sender, type := RoomEventType.Message, message := m }] } d
          = Except.ok c0 →
        env.empty ((c0.call (ChannelCall.confirm_participant sender)).call
          (ChannelCall.message_received sender m)) = false) :
    ∃ c0 s1 s2, create_channel env
          { s with m_event_log := s.m_event_log ++
              [{ sender := sender, type := RoomEventType.Message, message := m }] } d
        = Except.ok c0
      ∧ c0.ctor = ChannelCtor.from_status d
      ∧ message_received env s sender m = Except.ok s1
      ∧ ChannelMap.find s1.m_channels m.payload
          = some (c0.call (ChannelCall.confirm_participant sender))
      ∧ message_received env s1 sender m = Except.ok s2
      ∧ ChannelMap.find s2.m_channels m.payload
          = some (((c0.call (ChannelCall.confirm_participant sender)).call
              (ChannelCall.message_received sender m)).call
              (ChannelCall.confirm_participant sender)) := by
  have hf : sender_found d sender = true := (sender_found_iff d sender).2 hs
  have hrep : env.ndebug = true ∨ ∀ e ∈ s.m_event_log ++
      [{ sender := sender, type := RoomEventType.Message, message := m }],
      e.type = RoomEventType.Message := by
    rcases hreplay with h | h
    · exact Or.inl h
    · right
      intro e he
      rcases List.mem_append.1 he with h1 | h1
      · exact h e h1
      · simp only [List.mem_singleton] at h1
        rw [h1]
  obtain ⟨c0, hc0, hctor⟩ := replay_returns env
    { ctor := ChannelCtor.from_status d, calls := [] } _ hrep
  have hfirst : message_received env s sender m = Except.ok
      { s with
        m_event_log := s.m_event_log ++
          [{ sender := sender, type := RoomEventType.Message, message := m }]
        m_channels := ChannelMap.assign
          (ChannelMap.assign
            (forwarded env (ChannelCall.message_received sender m) s.m_channels)
            m.payload c0)
          m.payload (c0.call (ChannelCall.confirm_participant sender)) } := by
    rw [message_received_status env s sender m d hl hm hd hf]
    rw [find_forwarded_none env _ _ _ hnew]
    simp only [hc0]
    exact complete_join_idle env _ (by exact hj)
  have hsecond : ∀ S1 : ChannelSearch, S1.m_received_search_message = true →
      S1.m_joining_channel_id = "" →
      ∀ c, ChannelMap.find S1.m_channels m.payload = some c →
      env.empty (c.call (ChannelCall.message_received sender m)) = false →
      ∃ s2, message_received env S1 sender m = Except.ok s2
        ∧ ChannelMap.find s2.m_channels m.payload
            = some ((c.call (ChannelCall.message_received sender m)).call
                (ChannelCall.confirm_participant sender)) := by
    intro S1 h1 h2 c h3 h4
    rw [message_received_status env S1 sender m d h1 hm hd hf,
      find_forwarded_keep env _ _ _ c h3 h4]
    exact ⟨_, complete_join_idle env _ (by exact h2), find_assign_same _ _ _⟩
  obtain ⟨S1, hS1⟩ : ∃ S1 : ChannelSearch, S1 = { s with
      m_event_log := s.m_event_log ++
        [{ sender := sender, type := RoomEventType.Message, message := m }]
      m_channels := ChannelMap.assign
        (ChannelMap.assign
          (forwarded env (ChannelCall.message_received sender m) s.m_channels)
          m.payload c0)
        m.payload (c0.call (ChannelCall.confirm_participant sender)) } := ⟨_, rfl⟩
  rw [← hS1] at hfirst
  have a1 : S1.m_received_search_message = true := by rw [hS1]; exact hl
  have a2 : S1.m_joining_channel_id = "" := by rw [hS1]; exact hj
  have a3 : ChannelMap.find S1.m_channels m.payload
      = some (c0.call (ChannelCall.confirm_participant sender)) := by
    rw [hS1]; exact find_assign_same _ _ _
  obtain ⟨s2, h5, h6⟩ := hsecond S1 a1 a2 _ a3 (hkeep c0 hc0)
  exact ⟨c0, S1, s2, hc0, hctor, hfirst, a3, h5, h6⟩

theorem status_twice_witness :
    latched.m_received_search_message = true
    ∧ latched.m_joining_channel_id = ""
    ∧ ChannelMap.find latched.m_channels status_ID1.payload = none
    ∧ ∃ c0 s1 s2, create_channel quiet_env
          { latched with m_event_log := latched.m_event_log ++
              [{ sender := "bob", type := RoomEventType.Message, message := status_ID1 }] }
          bob_carol
        = Except.ok c0
      ∧ c0.ctor = ChannelCtor.from_status bob_carol
      ∧ message_received quiet_env latched "bob" status_ID1 = Except.ok s1
      ∧ ChannelMap.find s1.m_channels status_ID1.payload
          = some (c0.call (ChannelCall.confirm_participant "bob"))
      ∧ message_received quiet_env s1 "bob" status_ID1 = Except.ok s2
      ∧ ChannelMap.find s2.m_channels status_ID1.payload
          = some (((c0.call (ChannelCall.confirm_participant "bob")).call
              (ChannelCall.message_received "bob" status_ID1)).call
              (ChannelCall.confirm_participant "bob")) :=
  ⟨rfl, rfl, rfl,
    status_twice quiet_env latched "bob" status_ID1 bob_carol rfl rfl rfl rfl
      (Or.inl ⟨{ username := "bob" }, by simp [bob_carol], rfl⟩) rfl
      (Or.inr (by intro e he; cases he)) (fun _ _ => rfl)⟩

/-- C15 (as stated, refuted): with handles that report empty() on receiving bob's
status message for ID1, the first delivery in the state `latched` creates the handle of
ID1; the second delivery dispatches the message to it, the handle reports empty() and is
erased, and create_channel builds a second handle, which has received
confirm_participant("bob") once only. -/
theorem second_delivery_rebuilds_the_handle :
    latched.m_received_search_message = true
    ∧ latched.m_joining_channel_id = ""
    ∧ ChannelMap.find latched.m_channels "ID1" = none
    ∧ message_received brittle_env latched "bob" status_ID1 = Except.ok with_ID1
    ∧ ChannelMap.find with_ID1.m_channels "ID1" = some handle_ID1
    ∧ brittle_env.empty (handle_ID1.call (ChannelCall.message_received "bob" status_ID1))
        = true
    ∧ create_channel brittle_env { rebuilt_ID1 with m_channels := [] } bob_carol
        = Except.ok
            { ctor := ChannelCtor.from_status bob_carol
              calls := [ChannelCall.message_received "bob" status_ID1,
                        ChannelCall.message_received "bob" status_ID1] }
    ∧ message_received brittle_env with_ID1 "bob" status_ID1 = Except.ok rebuilt_ID1
    ∧ ChannelMap.find rebuilt_ID1.m_channels "ID1"
        ≠ some ((handle_ID1.call (ChannelCall.message_received "bob" status_ID1)).call
            (ChannelCall.confirm_participant "bob")) :=
  ⟨rfl, rfl, rfl, rfl, rfl, rfl, rfl, rfl, by decide⟩

/-! ## What a handle has been delivered -/

/-- C16: a run, in a build without assertions, after which the events delivered to a
candidate are no suffix of event_log. Bob's status message creates ID1 and is replayed
into its handle; user_joined("frank") then logs the Join event, but send_event forwards
it to no handle: event_log ends with Join(frank) and the handle has been delivered bob's
message only. -/
theorem delivered_events_are_no_suffix :
    Reachable quiet_release_env after_frank
    ∧ user_joined quiet_release_env with_ID1 "frank" = Except.ok after_frank
    ∧ ("ID1", handle_ID1) ∈ after_frank.m_channels
    ∧ handle_ID1.delivered = [message_event "bob" status_ID1]
    ∧ after_frank.m_event_log = [message_event "bob" status_ID1, join_frank]
    ∧ ¬ (handle_ID1.delivered <:+ after_frank.m_event_log) :=
  ⟨Reachable.user_joined with_ID1 after_frank "frank"
      (Reachable.message_received latched with_ID1 "bob" status_ID1
        (Reachable.message_received searching latched "alice" probe_echo
          (Reachable.search (ChannelSearch.new alice_room "") "N"
            (Reachable.new alice_room ""))
          rfl)
        rfl)
      rfl,
    rfl, List.mem_cons_self _ _, rfl, rfl, by decide⟩

/-! ## Delivered events when `send_event` is not given a Join or a Leave

The run above needs the Join event to reach `send_event` with assertions compiled out.
In every other reachable state the events delivered to a candidate are a suffix of the
log: in a build with assertions (where such a call aborts), and in any build as long as
only Message events are logged. -/

theorem delivered_call_message (c : Channel) (sender : String) (m : Message) :
    (c.call (ChannelCall.message_received sender m)).delivered
      = c.delivered ++ [{ sender := sender, type := RoomEventType.Message, message := m }] := by
  simp [Channel.delivered, Channel.call, List.filterMap_append, ChannelCall.event]

theorem delivered_call_confirm (c : Channel) (sender : String) :
    (c.call (ChannelCall.confirm_participant sender)).delivered = c.delivered := by
  simp [Channel.delivered, Channel.call, List.filterMap_append, ChannelCall.event]

theorem delivered_call_join (c : Channel) :
    (c.call ChannelCall.join).delivered = c.delivered := by
  simp [Channel.delivered, Channel.call, List.filterMap_append, ChannelCall.event]

theorem replay_delivered (env : Env) (c c0 : Channel) (log : List RoomEvent)
    (hmode : env.ndebug = false ∨ ∀ e ∈ log, e.type = RoomEventType.Message)
    (h : replay env c log = Except.ok c0) :
    c0.delivered = c.delivered ++ log := by
  induction log generalizing c with
  | nil =>
    simp only [replay] at h
    cases h
    simp
  | cons e rest ih =>
    unfold replay at h
    by_cases he : e.type = RoomEventType.Message
    · have hmode1 : env.ndebug = false ∨ ∀ e1 ∈ rest, e1.type = RoomEventType.Message := by
        rcases hmode with h1 | h1
        · exact Or.inl h1
        · exact Or.inr (fun e1 h2 => h1 e1 (List.mem_cons_of_mem _ h2))
      simp only [send_event, he, if_true] at h
      rw [ih _ hmode1 h, delivered_call_message]
      have hee : ({ sender := e.sender, type := RoomEventType.Message, message := e.message }
          : RoomEvent) = e := by
        cases e
        simp only at he
        subst he
        rfl
      rw [hee]
      simp
    · rcases hmode with h1 | h1
      · rw [send_event_other env c e he] at h
        simp [h1] at h
      · exact absurd (h1 e (List.mem_cons_self _ _)) he

theorem mem_assign_eq (m : ChannelMap) (k : String) (c : Channel) (kc : String × Channel)
    (h : kc ∈ ChannelMap.assign m k c) : kc = (k, c) ∨ kc ∈ m := by
  induction m with
  | nil =>
    simp only [ChannelMap.assign, List.mem_singleton] at h
    exact Or.inl h
  | cons kc0 rest ih =>
    obtain ⟨k1, c1⟩ := kc0
    unfold ChannelMap.assign at h
    split at h
    · rcases List.mem_cons.1 h with h1 | h1
      · exact Or.inl h1
      · exact Or.inr (List.mem_cons_of_mem _ h1)
    · split at h
      · rcases List.mem_cons.1 h with h1 | h1
        · exact Or.inl h1
        · exact Or.inr h1
      · rcases List.mem_cons.1 h with h1 | h1
        · right; rw [h1]; exact List.mem_cons_self _ _
        · rcases ih h1 with h2 | h2
          · exact Or.inl h2
          · exact Or.inr (List.mem_cons_of_mem _ h2)

theorem mem_call_at_eq (m m1 : ChannelMap) (k : String) (x : ChannelCall)
    (h : ChannelMap.call_at m k x = Except.ok m1) :
    ∀ kc ∈ m1, kc ∈ m ∨ ∃ c, (k, c) ∈ m ∧ kc.2 = c.call x := by
  unfold ChannelMap.call_at at h
  split at h
  · cases h
  · next c hc =>
    cases h
    intro kc hkc
    rcases mem_assign_eq _ _ _ kc hkc with h1 | h1
    · right
      exact ⟨c, find_some_mem _ _ _ hc, by rw [h1]⟩
    · exact Or.inl h1

theorem status_discovery_suffix_fed (env : Env) (s : ChannelSearch) (sender : String)
    (m : Message) (flow : Flow)
    (hmode : env.ndebug = false ∨ ∀ e ∈ s.m_event_log, e.type = RoomEventType.Message)
    (hinv : s.suffix_fed)
    (h : status_discovery env s sender m = Except.ok flow) :
    flow.state.suffix_fed := by
  unfold status_discovery at h
  split at h
  · cases h; exact hinv
  · split at h
    · cases h; exact hinv
    · next d _ =>
      split at h
      · cases h; exact hinv
      · simp only at h
        split at h
        · cases h
        · next m0 hm0 =>
          have hm0inv : ∀ kc ∈ m0, kc.2.delivered <:+ s.m_event_log := by
            split at hm0
            · split at hm0
              · cases hm0
              · next c0 hc0 =>
                cases hm0
                intro kc hkc
                rcases mem_assign_eq _ _ _ kc hkc with h1 | h1
                · rw [h1]
                  show c0.delivered <:+ s.m_event_log
                  rw [replay_delivered env _ c0 s.m_event_log hmode hc0]
                  simp [Channel.delivered]
                · exact hinv kc h1
            · cases hm0
              exact hinv
          split at h
          · cases h
          · next m1 hm1 =>
            cases h
            intro kc hkc
            rcases mem_call_at_eq _ _ _ _ hm1 kc hkc with h1 | ⟨c, hc, h1⟩
            · exact hm0inv kc h1
            · show kc.2.delivered <:+ s.m_event_log
              rw [h1, delivered_call_confirm]
              exact hm0inv (m.payload, c) hc

theorem announcement_discovery_suffix_fed (env : Env) (s : ChannelSearch) (sender : String)
    (m : Message) (flow : Flow) (hinv : s.suffix_fed)
    (h : announcement_discovery env s sender m = Except.ok flow) :
    flow.state.suffix_fed := by
  unfold announcement_discovery at h
  split at h
  · cases h; exact hinv
  · split at h
    · cases h; exact hinv
    · next d _ =>
      simp only at h
      split at h
      · cases h
      · next m1 hm1 =>
        cases h
        have hm0inv : ∀ kc ∈ (if (!ChannelMap.count s.m_channels (m.payload ++ sender)) = true
            then ChannelMap.assign s.m_channels (m.payload ++ sender)
              { ctor := ChannelCtor.from_announcement d sender, calls := [] }
            else s.m_channels), kc.2.delivered <:+ s.m_event_log := by
          intro kc hkc
          split at hkc
          · rcases mem_assign_eq _ _ _ kc hkc with h1 | h1
            · rw [h1]
              simp [Channel.delivered]
            · exact hinv kc h1
          · exact hinv kc hkc
        intro kc hkc
        rcases mem_call_at_eq _ _ _ _ hm1 kc hkc with h1 | ⟨c, hc, h1⟩
        · exact hm0inv kc h1
        · show kc.2.delivered <:+ s.m_event_log
          rw [h1, delivered_call_confirm]
          exact hm0inv (m.payload ++ sender, c) hc

theorem search_discovery_suffix_fed (env : Env) (s : ChannelSearch) (sender : String)
    (m : Message) (hinv : s.suffix_fed) :
    (search_discovery env s sender m).state.suffix_fed := by
  unfold search_discovery
  split
  · exact hinv
  · split <;> exact hinv

theorem conclude_suffix_fed (env : Env) (flow : Flow) (s1 : ChannelSearch)
    (hinv : flow.state.suffix_fed) (h : conclude env flow = Except.ok s1) :
    s1.suffix_fed := by
  cases flow with
  | returned s2 =>
    simp only [conclude] at h
    cases h
    exact hinv
  | closing s2 =>
    simp only [conclude] at h
    intro kc hkc
    rw [complete_join_log env s2 s1 h]
    exact hinv kc (complete_join_mem env s2 s1 h kc hkc)

theorem forwarded_suffix_fed (env : Env) (s : ChannelSearch) (sender : String)
    (m : Message) (hinv : s.suffix_fed) :
    ({ s with
        m_event_log := s.m_event_log ++
          [{ sender := sender, type := RoomEventType.Message, message := m }]
        m_channels := forwarded env (ChannelCall.message_received sender m) s.m_channels }
      : ChannelSearch).suffix_fed := by
  intro kc hkc
  obtain ⟨k, c1⟩ := kc
  obtain ⟨c, hc, h1, _⟩ := (mem_forwarded env _ _ k c1).1 hkc
  show c1.delivered <:+ s.m_event_log ++ _
  rw [h1, delivered_call_message]
  obtain ⟨pre, hpre⟩ := hinv (k, c) hc
  exact ⟨pre, by rw [← hpre, List.append_assoc]⟩

theorem message_received_suffix_fed (env : Env) (s s1 : ChannelSearch) (sender : String)
    (m : Message) (hl : s.m_received_search_message = true)
    (hmode : env.ndebug = false ∨ ∀ e ∈ s.m_event_log, e.type = RoomEventType.Message)
    (hinv : s.suffix_fed)
    (h : message_received env s sender m = Except.ok s1) : s1.suffix_fed := by
  rw [message_received_eq_conclude] at h
  cases hd : discovery env s sender m with
  | error f => rw [hd] at h; cases h
  | ok flow =>
    rw [hd] at h
    refine conclude_suffix_fed env flow s1 ?_ h
    unfold discovery at hd
    simp only [process_event_message, if_pos hl] at hd
    have hinv0 := forwarded_suffix_fed env s sender m hinv
    have hmode0 : env.ndebug = false ∨ ∀ e ∈ s.m_event_log ++
        [{ sender := sender, type := RoomEventType.Message, message := m }],
        e.type = RoomEventType.Message := by
      rcases hmode with h1 | h1
      · exact Or.inl h1
      · right
        intro e he
        rcases List.mem_append.1 he with h2 | h2
        · exact h1 e h2
        · simp only [List.mem_singleton] at h2
          rw [h2]
    split at hd
    · cases hd
      exact search_discovery_suffix_fed env _ sender m hinv0
    · exact status_discovery_suffix_fed env _ sender m flow hmode0 hinv0 hd
    · exact announcement_discovery_suffix_fed env _ sender m flow hinv0 hd
    · cases hd
      exact hinv0

theorem join_channel_suffix_fed (env : Env) (s s1 : ChannelSearch) (id_hash : String)
    (hinv : s.suffix_fed) (h : join_channel env s id_hash = Except.ok s1) :
    s1.suffix_fed ∧ s1.m_event_log = s.m_event_log := by
  unfold join_channel at h
  split at h
  · cases h
  · simp only at h
    split at h
    · cases h; exact ⟨hinv, rfl⟩
    · split at h
      · cases h
      · next m1 hm1 =>
        cases h
        refine ⟨?_, rfl⟩
        intro kc hkc
        rcases mem_call_at_eq _ _ _ _ hm1 kc hkc with h1 | ⟨c, hc, h1⟩
        · exact hinv kc h1
        · show kc.2.delivered <:+ s.m_event_log
          rw [h1, delivered_call_join]
          exact hinv _ hc

theorem process_event_other_suffix_fed (env : Env) (s s1 : ChannelSearch)
    (event : RoomEvent) (hty : event.type ≠ RoomEventType.Message)
    (hmode : env.ndebug = false ∨ ∀ e ∈ s1.m_event_log, e.type = RoomEventType.Message)
    (hinv : (env.ndebug = false ∨ ∀ e ∈ s.m_event_log, e.type = RoomEventType.Message) →
      s.suffix_fed)
    (h : process_event env s event = Except.ok s1) : s1.suffix_fed := by
  cases hl : s.m_received_search_message with
  | false =>
    rw [process_event_unlatched env s event hl] at h
    cases h
    exact hinv hmode
  | true =>
    unfold process_event at h
    simp only [hl, Bool.not_true, Bool.false_eq_true, if_false] at h
    split at h
    · cases h
    · next m1 hm1 =>
      cases h
      have hn : env.ndebug = false := by
        rcases hmode with h1 | h1
        · exact h1
        · exact absurd (h1 event (by simp)) hty
      cases hm : s.m_channels with
      | nil =>
        rw [hm] at hm1
        simp only [dispatch] at hm1
        cases hm1
        intro kc hkc
        cases hkc
      | cons kc rest =>
        obtain ⟨k, c⟩ := kc
        rw [hm, dispatch_other_debug env event k c rest hty hn] at hm1
        cases hm1

/-- Apart from a Join or Leave event reaching `send_event` with assertions compiled out,
the events delivered to a candidate are a suffix of the event log: in every reachable
state of a build with assertions, and in every reachable state of any build whose log
holds Message events only. -/
theorem reachable_suffix_fed (env : Env) (s : ChannelSearch) (hr : Reachable env s)
    (hmode : env.ndebug = false ∨ ∀ e ∈ s.m_event_log, e.type = RoomEventType.Message) :
    s.suffix_fed := by
  induction hr with
  | new room nonce0 => intro kc hkc; cases hkc
  | search s fresh _ _ => intro kc hkc; cases hkc
  | join_channel s s1 id_hash hr0 h ih =>
    have hmode0 : env.ndebug = false ∨
        ∀ e ∈ s.m_event_log, e.type = RoomEventType.Message := by
      rcases hmode with h1 | h1
      · exact Or.inl h1
      · right
        unfold join_channel at h
        split at h
        · cases h
        · simp only at h
          split at h
          · cases h; exact h1
          · split at h
            · cases h
            · cases h; exact h1
    exact (join_channel_suffix_fed env s s1 id_hash (ih hmode0) h).1
  | message_received s s1 sender m hr0 h ih =>
    cases hl : s.m_received_search_message with
    | false =>
      obtain ⟨hc, _, hj⟩ := reachable_unlatched env s hr0 hl
      by_cases hp : Inbound.latches env s (Inbound.message sender m)
      · rw [message_received_probe env s sender m hl hj hp] at h
        cases h
        intro kc hkc
        rw [show ({ s with m_received_search_message := true } : ChannelSearch).m_channels
          = [] from hc] at hkc
        cases hkc
      · rw [message_received_unlatched env s sender m hl hj hp] at h
        cases h
        intro kc hkc
        rw [hc] at hkc
        cases hkc
    | true =>
      have hlog := message_received_log env s s1 sender m hl h
      have hmode0 : env.ndebug = false ∨
          ∀ e ∈ s.m_event_log, e.type = RoomEventType.Message := by
        rcases hmode with h1 | h1
        · exact Or.inl h1
        · right
          intro e he
          apply h1 e
          rw [hlog]
          exact List.mem_append_left _ he
      exact message_received_suffix_fed env s s1 sender m hl hmode0 (ih hmode0) h
  | user_joined s s1 sender hr0 h ih =>
    exact process_event_other_suffix_fed env s s1 _ (by simp) hmode ih h
  | user_left s s1 sender hr0 h ih =>
    exact process_event_other_suffix_fed env s s1 _ (by simp) hmode ih h

end np1sec
